/-
  Verification development for the schedule-image analysis pipeline
  (project_planner, src/app.js).

  The JavaScript source is shallowly embedded: floating-point arithmetic is
  modelled exactly over the rationals, pixel buffers are total functions from
  flat byte indices to byte values, the unseeded Math.random() stream is an
  explicit parameter (a function from draw index to a rational in [0,1)), and
  the mutable window globals consulted by the pipeline are threaded as explicit
  state.  Fallible stages return Option values or result structures carrying
  the same reason strings as the source.
-/
import Mathlib

set_option maxRecDepth 4000

namespace SchedulePipeline

/-! ## JavaScript numeric primitives -/

/-- Math.floor on an exact rational. -/
def jsFloor (q : ℚ) : ℤ := ⌊q⌋

/-- Math.ceil on an exact rational. -/
def jsCeil (q : ℚ) : ℤ := ⌈q⌉

/-- Math.round: rounds half toward positive infinity, like JavaScript. -/
def jsRound (q : ℚ) : ℤ := ⌊q + 1/2⌋

/-- The clamp helper from app.js: Math.max(lo, Math.min(hi, n)). -/
def clampQ (n lo hi : ℚ) : ℚ := max lo (min hi n)

/-- Stable insertion of a into a list sorted by le: a goes after every
element that le-precedes it, matching the stable Array.prototype.sort. -/
def stableInsert {α : Type} (le : α → α → Bool) (a : α) : List α → List α
  | [] => [a]
  | b :: bs => if le b a then b :: stableInsert le a bs else a :: b :: bs

/-- Stable sort by a boolean comparator, as Array.prototype.sort with a
numeric comparator (stable per the ECMAScript specification). -/
def jsSortBy {α : Type} (le : α → α → Bool) (l : List α) : List α :=
  l.foldl (fun acc a => stableInsert le a acc) []

/-- Truncation `x | 0` for the nonnegative values produced by sampling. -/
def jsTrunc (q : ℚ) : ℤ := ⌊q⌋

/-! ## Tick validation (computeMedianDy / nearestTickWithin /
    validateTicksFromFirst, app.js lines 1949-2068) -/

/-- Median tick spacing: positive consecutive differences, sorted ascending;
odd count takes the middle element, even count averages the two middles.
Returns none where the source returns NaN. -/
def computeMedianDy (ticks : List ℚ) : Option ℚ :=
  if ticks.length < 2 then none
  else
    let diffs := ((ticks.zip ticks.tail).map (fun p => p.2 - p.1)).filter (fun d => 0 < d)
    if diffs = [] then none
    else
      let sorted := jsSortBy (fun a b => a ≤ b) diffs
      let mid := diffs.length / 2
      if diffs.length % 2 = 1 then some (sorted.getD mid 0)
      else some ((sorted.getD (mid - 1) 0 + sorted.getD mid 0) / 2)

/-- Result of nearestTickWithin: the snapped tick value, its index in the raw
list, and its distance from the expected position. -/
structure TickHit where
  y : ℚ
  idx : ℕ
  dist : ℚ
  deriving Repr, DecidableEq

/-- Scan of nearestTickWithin over raw indices from startIdx upward, keeping
the strictly closest hit within the snap window (ties keep the earliest). -/
def nearestTickWithin (raw : List ℚ) (expected snapWin : ℚ) (startIdx : ℕ) :
    Option TickHit :=
  (List.range raw.length).foldl
    (fun best i =>
      if i < startIdx then best
      else
        let y := raw.getD i 0
        let d := |y - expected|
        if (decide (d ≤ snapWin) && best.all (fun b => decide (d < b.dist))) = true then some ⟨y, i, d⟩ else best)
    none

/-- Greedy chain walk of validateFromIndex: expected advances by dy each step
independently of the accepted tick; the nearest unused later raw tick within
the snap window is appended, else the chain stops.  Fuel bounds the loop; the
raw index strictly increases so raw.length steps suffice. -/
def chainWalk (raw : List ℚ) (dy snapWin : ℚ) :
    ℕ → ℚ → ℕ → List ℚ → List ℚ
  | 0, _, _, acc => acc.reverse
  | fuel + 1, expected, rawIdx, acc =>
    let e := expected + dy
    match nearestTickWithin raw e snapWin rawIdx with
    | none => acc.reverse
    | some hit => chainWalk raw dy snapWin fuel e (hit.idx + 1) (hit.y :: acc)

/-- Chain from one start index, as in validateFromIndex. -/
def validateFromIndex (raw : List ℚ) (dy snapWin : ℚ) (startIndex : ℕ) :
    List ℚ :=
  chainWalk raw dy snapWin (raw.length + 1) (raw.getD startIndex 0)
    (startIndex + 1) [raw.getD startIndex 0]

/-- Start-candidate collection of validateTicksFromFirst: indices are taken in
order while the tick lies at or below the top cut, stopping at the first tick
above it or once 8 candidates are collected; index 0 is forced if none
qualify. -/
def chainCandidates (raw : List ℚ) (topCut : ℚ) (candidateCount : ℕ) :
    List ℕ :=
  let pfx :=
    ((List.range raw.length).takeWhile (fun i => raw.getD i 0 ≤ topCut)).take
      candidateCount
  if pfx = [] then [0] else pfx

/-- First-maximum selection over candidate chains: a later chain replaces the
current best only when strictly longer, matching the source comparison. -/
def bestChain (raw : List ℚ) (dy snapWin : ℚ) (cands : List ℕ) : List ℚ :=
  cands.foldl
    (fun best s =>
      let v := validateFromIndex raw dy snapWin s
      if best.length < v.length then v else best)
    []

/-- Result record of validateTicksFromFirst. -/
structure VTicksResult where
  ok : Bool
  ticks : List ℚ
  dy : Option ℚ
  snapWin : ℚ
  reason : String
  deriving Repr, DecidableEq

/-- Tick validator (validateTicksFromFirst with default options:
snapFrac 0.10, snap window clamped to [4,18], up to 8 candidates in the top
20 percent of the y-range, dy plausible in [10,90], at least 6 validated). -/
def validateTicksFromFirst (rawTicks : List ℚ) : VTicksResult :=
  if rawTicks.length < 2 then
    ⟨false, rawTicks, none, 0, "too few raw ticks"⟩
  else
    match computeMedianDy rawTicks with
    | none => ⟨false, rawTicks, none, 0, "bad median dy"⟩
    | some dy =>
      if dy < 10 ∨ 90 < dy then
        ⟨false, rawTicks, some dy, 0, "bad median dy"⟩
      else
        let snapWin : ℚ := clampQ (jsRound (dy * (1/10))) 4 18
        let yMin := rawTicks.getD 0 0
        let yMax := rawTicks.getD (rawTicks.length - 1) 0
        let topCut := yMin + (yMax - yMin) * (2/10)
        let cands := chainCandidates rawTicks topCut 8
        let out := bestChain rawTicks dy snapWin cands
        if 6 ≤ out.length then
          ⟨true, out, some dy, snapWin, "ok"⟩
        else
          ⟨false, out, some dy, snapWin, "too few validated ticks"⟩

/-! ## Pixel buffers and precompute (buildPrecomputeFromCanvas,
    app.js lines 1686-1793).  imgData is the flat RGBA byte array as a total
    function; the near-white and dark masks are derived per pixel exactly as
    in the one-pass mask build (near-white: every channel at least 240; dark:
    luma 0.2126r+0.7152g+0.0722b at most 215).  rectSum is the rectangle
    population count that the summed-area tables whiteP/darkP implement; the
    prefix-table form and its agreement with the direct count are proved
    below (buildPrefixFromMask / rectSum_prefix_eq). -/

/-- Flat RGBA index of pixel (x, y) in a row-major buffer of width w. -/
def idxOf (x y w : ℕ) : ℕ := (y * w + x) * 4

/-- Pixel buffer plus dimensions: the pre object minus its derived tables. -/
structure Pre where
  w : ℕ
  h : ℕ
  imgData : ℕ → ℕ

/-- Red channel of pixel (x, y). -/
def pxR (pre : Pre) (x y : ℕ) : ℕ := pre.imgData (idxOf x y pre.w)

/-- Green channel of pixel (x, y). -/
def pxG (pre : Pre) (x y : ℕ) : ℕ := pre.imgData (idxOf x y pre.w + 1)

/-- Blue channel of pixel (x, y). -/
def pxB (pre : Pre) (x y : ℕ) : ℕ := pre.imgData (idxOf x y pre.w + 2)

/-- Near-white predicate at threshold 240 (isNearWhite). -/
def isNearWhite (r g b : ℕ) : Bool := 240 ≤ r && 240 ≤ g && 240 ≤ b

/-- Luma of a pixel, exact rational weights 0.2126/0.7152/0.0722. -/
def luma (r g b : ℕ) : ℚ :=
  (2126 * r + 7152 * g + 722 * b : ℚ) / 10000

/-- Darkness test: luma at most 215.  Stated with cleared denominators over
the naturals; lumaDark_iff below proves it equal to the rational comparison
luma r g b ≤ 215. -/
def lumaDark (r g b : ℕ) : Bool :=
  2126 * r + 7152 * g + 722 * b ≤ 2150000

/-- Near-white mask built by buildPrecomputeFromCanvas. -/
def whiteMask (pre : Pre) (x y : ℕ) : Bool :=
  isNearWhite (pxR pre x y) (pxG pre x y) (pxB pre x y)

/-- Dark mask built by buildPrecomputeFromCanvas: luma at most 215. -/
def darkMask (pre : Pre) (x y : ℕ) : Bool :=
  lumaDark (pxR pre x y) (pxG pre x y) (pxB pre x y)

/-- Count of mask hits in one row segment starting at x0, length n. -/
def rowCount (m : ℕ → ℕ → Bool) (y x0 n : ℕ) : ℕ :=
  (List.range n).countP (fun i => m (x0 + i) y)

/-- Rectangle population count over [x0,x1) x [y0,y1): the quantity the
summed-area-table query rectSum(P, W, x0, y0, x1, y1) returns. -/
def rectSum (m : ℕ → ℕ → Bool) (x0 y0 x1 y1 : ℤ) : ℕ :=
  (List.range (y1 - y0).toNat).foldl
    (fun acc j => acc + rowCount m (y0.toNat + j) x0.toNat (x1 - x0).toNat) 0

/-- Prefix table of buildPrefixFromMask as a function: entry (x, y) is the
mask count over [0,x) x [0,y). -/
def buildPrefixFromMask (m : ℕ → ℕ → Bool) (x y : ℕ) : ℕ :=
  (List.range y).foldl (fun acc j => acc + rowCount m j 0 x) 0

/-- White fraction of a rectangle (rectWhiteFrac); zero on empty area. -/
def rectWhiteFrac (pre : Pre) (x0 y0 x1 y1 : ℤ) : ℚ :=
  let area : ℤ := (x1 - x0) * (y1 - y0)
  if area ≤ 0 then 0
  else (rectSum (whiteMask pre) x0 y0 x1 y1 : ℚ) / (area : ℚ)

/-- Non-white fraction (rectNonWhiteFrac = 1 - rectWhiteFrac). -/
def rectNonWhiteFrac (pre : Pre) (x0 y0 x1 y1 : ℤ) : ℚ :=
  1 - rectWhiteFrac pre x0 y0 x1 y1

/-- Dark fraction of a rectangle (rectDarkFrac); zero on empty area. -/
def rectDarkFrac (pre : Pre) (x0 y0 x1 y1 : ℤ) : ℚ :=
  let area : ℤ := (x1 - x0) * (y1 - y0)
  if area ≤ 0 then 0
  else (rectSum (darkMask pre) x0 y0 x1 y1 : ℚ) / (area : ℚ)

/-- Integer clamp, used where every quantity in the source expression is
integral so that clamp(n, lo, hi) = max(lo, min(hi, n)) stays integral. -/
def clampZ (n lo hi : ℤ) : ℤ := max lo (min hi n)

/-! ## Geometry records -/

/-- Day-column interval [x0, x1). -/
structure Region where
  x0 : ℤ
  x1 : ℤ
  deriving Repr, DecidableEq

/-- The five frozen day regions, Monday through Friday. -/
structure DayRegions where
  monday : Region
  tuesday : Region
  wednesday : Region
  thursday : Region
  friday : Region
  deriving Repr, DecidableEq

/-- Object.values order of the day regions map (insertion order
Monday..Friday). -/
def DayRegions.values (d : DayRegions) : List Region :=
  [d.monday, d.tuesday, d.wednesday, d.thursday, d.friday]

/-- Pixel-row interval of one half-hour slot. -/
structure SlotBand where
  yStart : ℤ
  yEnd : ℤ
  topTick : ℤ
  botTick : ℤ
  deriving Repr, DecidableEq

/-- Calibrated background color with tolerance. -/
structure BgColor where
  r : ℕ
  g : ℕ
  b : ℕ
  tol : ℚ
  deriving Repr, DecidableEq

/-- Tick lane in pixel coordinates, the shape stored in the
window.__TICK_LANE__ global. -/
structure LanePx where
  x0 : ℤ
  x1 : ℤ
  deriving Repr, DecidableEq

/-! ## Cell classification (isBgMatch / isPurpleMatch / measurePurpleFrac /
    classifySlotSample / detectGridSpill, app.js lines 3617-3820).  The
    unseeded Math.random() stream is the function rng; a call site that has
    consumed k draws reads rng k next.  Sample i of a loop draws rng (k+2i)
    for x and rng (k+2i+1) for y. -/

/-- Background match within per-channel tolerance (isBgMatch). -/
def isBgMatch (r g b : ℕ) (bg : BgColor) : Bool :=
  |(r : ℚ) - bg.r| ≤ bg.tol && |(g : ℚ) - bg.g| ≤ bg.tol && |(b : ℚ) - bg.b| ≤ bg.tol

/-- Reference purple match: every channel within tolerance 55 of
(213, 43, 255) (isPurpleMatch with PURPLE_WORK). -/
def isPurpleMatch (r g b : ℕ) : Bool :=
  |(r : ℤ) - 213| ≤ 55 && |(g : ℤ) - 43| ≤ 55 && |(b : ℤ) - 255| ≤ 55

/-- Sampling rectangle after the insetX/insetY clamps shared by
measurePurpleFrac and classifySlotSample. -/
def sampleRect (pre : Pre) (slot : SlotBand) (region : Region)
    (insetX insetY : ℤ) : ℤ × ℤ × ℤ × ℤ :=
  let x0 := clampZ (region.x0 + insetX) 0 ((pre.w : ℤ) - 1)
  let x1 := clampZ (region.x1 - insetX) (x0 + 1) (pre.w : ℤ)
  let y0 := clampZ (slot.yStart + insetY) 0 ((pre.h : ℤ) - 1)
  let y1 := clampZ (slot.yEnd - insetY) (y0 + 1) (pre.h : ℤ)
  (x0, x1, y0, y1)

/-- Coordinates of sample i: x = (x0 + random * (x1 - x0)) | 0 and likewise
for y, drawing rng (k + 2 i) then rng (k + 2 i + 1). -/
def samplePoint (rng : ℕ → ℚ) (k i : ℕ) (x0 x1 y0 y1 : ℤ) : ℕ × ℕ :=
  let x := jsTrunc ((x0 : ℚ) + rng (k + 2 * i) * ((x1 : ℚ) - x0))
  let y := jsTrunc ((y0 : ℚ) + rng (k + 2 * i + 1) * ((y1 : ℚ) - y0))
  (x.toNat, y.toNat)

/-- RGB triple of sample i. -/
def samplePixel (pre : Pre) (rng : ℕ → ℚ) (k i : ℕ) (x0 x1 y0 y1 : ℤ) :
    ℕ × ℕ × ℕ :=
  let p := samplePoint rng k i x0 x1 y0 y1
  (pxR pre p.1 p.2, pxG pre p.1 p.2, pxB pre p.1 p.2)

/-- measurePurpleFrac with its defaults (160 samples, insets 8 and 2):
fraction of sampled pixels matching the reference purple.  Consumes 320
draws. -/
def measurePurpleFrac (pre : Pre) (slot : SlotBand) (region : Region)
    (rng : ℕ → ℚ) (k : ℕ) : ℚ :=
  let r := sampleRect pre slot region 8 2
  let cnt := (List.range 160).countP (fun i =>
    let px := samplePixel pre rng k i r.1 r.2.1 r.2.2.1 r.2.2.2
    isPurpleMatch px.1 px.2.1 px.2.2)
  (cnt : ℚ) / 160

/-- Result of classifySlotSample; the source reports fractions rounded to 3
decimals but decides free on the unrounded values kept here. -/
structure ClassifyResult where
  ok : Bool
  free : Bool
  bgFrac : ℚ
  inkFrac : ℚ
  purpleFrac : ℚ
  occupiedFrac : ℚ
  reason : String
  deriving Repr, DecidableEq

/-- classifySlotSample with its defaults (140 samples, bgFracMin 0.82,
inkFracMax 0.12, busyFracMin 0.50, insets 8 and 2).  A sample is occupied
when it is non-near-white, not purple and not a background match.  Consumes
280 draws. -/
def classifySlotSample (pre : Pre) (slot : SlotBand) (region : Region)
    (bg : BgColor) (rng : ℕ → ℚ) (k : ℕ) : ClassifyResult :=
  if region.x1 ≤ region.x0 then ⟨false, false, 0, 0, 0, 0, "bad dayRegion"⟩
  else if slot.yEnd ≤ slot.yStart then ⟨false, false, 0, 0, 0, 0, "bad slotBand"⟩
  else
    let r := sampleRect pre slot region 8 2
    let pxs := (List.range 140).map (fun i =>
      samplePixel pre rng k i r.1 r.2.1 r.2.2.1 r.2.2.2)
    let bgCount := pxs.countP (fun p => isBgMatch p.1 p.2.1 p.2.2 bg)
    let nonWhiteCount := pxs.countP (fun p => !isNearWhite p.1 p.2.1 p.2.2)
    let purpleCount := pxs.countP (fun p => isPurpleMatch p.1 p.2.1 p.2.2)
    let occupiedCount := pxs.countP (fun p =>
      !isNearWhite p.1 p.2.1 p.2.2 && !isPurpleMatch p.1 p.2.1 p.2.2 &&
        !isBgMatch p.1 p.2.1 p.2.2 bg)
    let bgFrac := (bgCount : ℚ) / 140
    let inkFrac := (nonWhiteCount : ℚ) / 140
    let purpleFrac := (purpleCount : ℚ) / 140
    let occupiedFrac := (occupiedCount : ℚ) / 140
    if (1/2 : ℚ) ≤ occupiedFrac then
      ⟨true, false, bgFrac, inkFrac, purpleFrac, occupiedFrac, ""⟩
    else
      let free := (82/100 : ℚ) ≤ bgFrac ∨ ((55/100 : ℚ) ≤ bgFrac ∧ inkFrac ≤ 12/100)
      ⟨true, free, bgFrac, inkFrac, purpleFrac, occupiedFrac, ""⟩

/-- detectGridSpill with its defaults: deterministic prefix-sum check that a
busy-looking cell is clean in the center while an edge or horizontal stripe
is heavily non-white. -/
def detectGridSpill (pre : Pre) (slot : SlotBand) (region : Region) : Bool :=
  let w : ℤ := pre.w
  let h : ℤ := pre.h
  let x0 := clampZ region.x0 0 (w - 1)
  let x1 := clampZ region.x1 (x0 + 1) w
  let y0 := clampZ slot.yStart 0 (h - 1)
  let y1 := clampZ slot.yEnd (y0 + 1) h
  let ix0 := clampZ (x0 + 8) 0 (w - 1)
  let ix1 := clampZ (x1 - 8) (ix0 + 1) w
  let iy0 := clampZ (y0 + 2) 0 (h - 1)
  let iy1 := clampZ (y1 - 2) (iy0 + 1) h
  let cxPad := max 10 (jsFloor (((ix1 - ix0 : ℤ) : ℚ) * (18/100)))
  let cyPad := max 4 (jsFloor (((iy1 - iy0 : ℤ) : ℚ) * (18/100)))
  let cx0 := clampZ (ix0 + cxPad) 0 (w - 1)
  let cx1 := clampZ (ix1 - cxPad) (cx0 + 1) w
  let cy0 := clampZ (iy0 + cyPad) 0 (h - 1)
  let cy1 := clampZ (iy1 - cyPad) (cy0 + 1) h
  let lx0 := ix0
  let lx1 := clampZ (ix0 + 8) (lx0 + 1) ix1
  let rx1 := ix1
  let rx0 := clampZ (ix1 - 8) ix0 (rx1 - 1)
  let ty0 := iy0
  let ty1 := clampZ (iy0 + 4) (ty0 + 1) iy1
  let by1 := iy1
  let by0 := clampZ (iy1 - 4) iy0 (by1 - 1)
  let centerNW := rectNonWhiteFrac pre cx0 cy0 cx1 cy1
  let leftNW := rectNonWhiteFrac pre lx0 iy0 lx1 iy1
  let rightNW := rectNonWhiteFrac pre rx0 iy0 rx1 iy1
  let topNW := rectNonWhiteFrac pre ix0 ty0 ix1 ty1
  let botNW := rectNonWhiteFrac pre ix0 by0 ix1 by1
  (centerNW ≤ 10/100 && (25/100 : ℚ) ≤ max leftNW rightNW) ||
    (centerNW ≤ 10/100 && (22/100 : ℚ) ≤ max topNW botNW)

/-- Modelled from the spec: trimDayRegionByDivider is called by
hasRowLikeStructure and probed by safeTrimDayRegion, but its definition is
not among the source files under src/.  Spec section 4.8 describes the
DayRegion as "trimmed inward ~6px near divider lines" and section 4.4 item 3
speaks of "inward-trimmed day-column interiors"; we model the trim as moving
both column edges inward by insetPx, keeping the original region when the
result would be degenerate (the same shape as safeTrimDayRegion's in-source
inset-only fallback). -/
def trimDayRegionByDivider (region : Region) (_dividerXs : List ℤ)
    (insetPx : ℤ) : Region :=
  let x0 := region.x0 + insetPx
  let x1 := region.x1 - insetPx
  if x1 ≤ x0 + 4 then region else ⟨x0, x1⟩

/-- safeTrimDayRegion: uses trimDayRegionByDivider (modelled above); its
inset-only fallback has the same behaviour. -/
def safeTrimDayRegion (region : Region) (dividerXs : List ℤ) (insetPx : ℤ) :
    Region :=
  trimDayRegionByDivider region dividerXs insetPx

/-! ## Availability grid (computeAvailFromFrozenNav, app.js lines 3839-3945).
    Default options: spillPolicy "none", busyFracMin 0.50.  Each cell first
    measures the purple fraction (160 samples, 320 draws); a work cell is
    marked available without consulting the busy/free classifier, otherwise
    classifySlotSample consumes a further 280 draws. -/

/-- Frozen navigation snapshot. -/
structure Nav where
  dayRegions : DayRegions
  slotBands : List SlotBand
  ticksForMap : List ℚ
  bgWhite : BgColor
  dividerXs : List ℤ
  anchorStartTime : String
  deriving Repr, DecidableEq

/-- Availability output: available and work flags per day, Monday..Friday. -/
structure Avail where
  slots : ℕ
  anchorStartTime : String
  daysMonday : List Bool
  daysTuesday : List Bool
  daysWednesday : List Bool
  daysThursday : List Bool
  daysFriday : List Bool
  workMonday : List Bool
  workTuesday : List Bool
  workWednesday : List Bool
  workThursday : List Bool
  workFriday : List Bool
  deriving Repr, DecidableEq

/-- Per-day slot loop of computeAvailFromFrozenNav: returns the available
flags, the work flags, and the next unread rng index. -/
def processSlotsDay (pre : Pre) (region : Region) (bg : BgColor)
    (rng : ℕ → ℚ) : List SlotBand → ℕ → List Bool × List Bool × ℕ
  | [], k => ([], [], k)
  | slot :: rest, k =>
    let purpleFrac := measurePurpleFrac pre slot region rng k
    let isWork := (18/100 : ℚ) ≤ purpleFrac
    if isWork then
      let t := processSlotsDay pre region bg rng rest (k + 320)
      (true :: t.1, true :: t.2.1, t.2.2)
    else
      let base := classifySlotSample pre slot region bg rng (k + 320)
      let free := base.ok && base.free
      let t := processSlotsDay pre region bg rng rest (k + 320 + 280)
      (free :: t.1, false :: t.2.1, t.2.2)

/-- The day loop, Monday through Friday in order, threading the rng index. -/
def computeAvailFromFrozenNav (pre : Pre) (nav : Nav) (rng : ℕ → ℚ) (k : ℕ) :
    Option Avail × ℕ :=
  if nav.slotBands.length < 1 then (none, k)
  else
    let trim := fun r => safeTrimDayRegion r nav.dividerXs 6
    let mon := processSlotsDay pre (trim nav.dayRegions.monday) nav.bgWhite rng
      nav.slotBands k
    let tue := processSlotsDay pre (trim nav.dayRegions.tuesday) nav.bgWhite rng
      nav.slotBands mon.2.2
    let wed := processSlotsDay pre (trim nav.dayRegions.wednesday) nav.bgWhite rng
      nav.slotBands tue.2.2
    let thu := processSlotsDay pre (trim nav.dayRegions.thursday) nav.bgWhite rng
      nav.slotBands wed.2.2
    let fri := processSlotsDay pre (trim nav.dayRegions.friday) nav.bgWhite rng
      nav.slotBands thu.2.2
    (some
      { slots := nav.slotBands.length
        anchorStartTime := nav.anchorStartTime
        daysMonday := mon.1, daysTuesday := tue.1, daysWednesday := wed.1
        daysThursday := thu.1, daysFriday := fri.1
        workMonday := mon.2.1, workTuesday := tue.2.1, workWednesday := wed.2.1
        workThursday := thu.2.1, workFriday := fri.2.1 }, fri.2.2)

/-! ## Raw tick detection and lane pick (detectTimeTicksFromLeftLane /
    pickBestTickLane, app.js lines 1830-1944) -/

/-- Candidate tick lane in width fractions. -/
structure LaneFrac where
  x0Frac : ℚ
  x1Frac : ℚ
  deriving Repr, DecidableEq

/-- Row state of the raw tick scan: inside-a-black-run flag, the run start,
and the ticks collected so far (reversed). -/
def tickScanStep (pre : Pre) (x0 x1 : ℤ) (st : Bool × ℤ × List ℤ) (y : ℤ) :
    Bool × ℤ × List ℤ :=
  let score := rectSum (darkMask pre) x0 y x1 (y + 3)
  let bandArea : ℤ := (x1 - x0) * 3
  let isBlack := (bandArea : ℚ) * (22/100) < (score : ℚ)
  match st with
  | (false, runStart, acc) =>
    if isBlack then (true, y, acc) else (false, runStart, acc)
  | (true, runStart, acc) =>
    if isBlack then (true, runStart, acc)
    else
      let runLen := y - runStart
      (false, runStart, if 2 ≤ runLen then jsFloor (((runStart + y : ℤ) : ℚ) / 2) :: acc else acc)

/-- detectTimeTicksFromLeftLane with defaults (band 3 rows tall, dark
fraction threshold 0.22, vertical pad 6, dedupe 10px, runs of at least 2):
contiguous black runs collapse to their midpoint, then ticks within 10px of
the previously accepted tick are dropped. -/
def detectTimeTicksFromLeftLane (pre : Pre) (lane : LaneFrac) : List ℤ :=
  let w : ℤ := pre.w
  let h : ℤ := pre.h
  let x0 := clampZ (jsFloor ((w : ℚ) * lane.x0Frac)) 0 (w - 1)
  let x1 := clampZ (jsFloor ((w : ℚ) * lane.x1Frac)) (x0 + 1) w
  let ys := (List.range (pre.h - 12)).map (fun i => (6 + i : ℤ))
  let st := ys.foldl (tickScanStep pre x0 x1) (false, 0, [])
  let ticks :=
    match st with
    | (true, runStart, acc) =>
      let runLen := (h - 6) - runStart
      if 2 ≤ runLen then jsFloor (((runStart + (h - 6) : ℤ) : ℚ) / 2) :: acc else acc
    | (false, _, acc) => acc
  (ticks.reverse).foldl
    (fun out y => if out = [] ∨ (∀ l ∈ out.getLast?, 10 < |y - l|) then out ++ [y] else out)
    []

/-- The five candidate lanes tried by pickBestTickLane, in order. -/
def candidateLanes : List LaneFrac :=
  [⟨15/1000, 55/1000⟩, ⟨30/1000, 70/1000⟩, ⟨45/1000, 85/1000⟩,
   ⟨60/1000, 95/1000⟩, ⟨75/1000, 110/1000⟩]

/-- Lane scan with early exit: the first lane scoring at least 8 ticks wins
outright, otherwise the first lane with the strictly highest tick count. -/
def pickLaneGo (pre : Pre) : List LaneFrac → Option (LaneFrac × ℕ) → LaneFrac
  | [], best =>
    match best with
    | some b => b.1
    | none => ⟨15/1000, 55/1000⟩
  | l :: rest, best =>
    let score := (detectTimeTicksFromLeftLane pre l).length
    let keep :=
      match best with
      | none => true
      | some b => b.2 < score
    let best1 := if keep then some (l, score) else best
    if 8 ≤ score then l else pickLaneGo pre rest best1

/-- pickBestTickLane with its default lanes. -/
def pickBestTickLane (pre : Pre) : LaneFrac :=
  pickLaneGo pre candidateLanes none

/-! ## Day divider detection (pickDayBandY / scoreVLineAtX /
    findBestDividerNearX / findDayDividers / freezeDayRegionsFromDividers,
    app.js lines 2637-2832) -/

/-- Sampling band row for divider detection, from the upper-middle of the
validated tick ladder (pickDayBandY). -/
def pickDayBandY (pre : Pre) (vTicks : List ℚ) : ℤ :=
  let h : ℤ := pre.h
  if vTicks.length < 6 then clampZ (jsFloor ((h : ℚ) * (35/100))) 0 (h - 1)
  else
    let i := (clampZ 8 2 ((vTicks.length : ℤ) - 3)).toNat
    let y := jsFloor ((vTicks.getD i 0 + vTicks.getD (i + 1) 0) / 2)
    clampZ y 0 (h - 1)

/-- Tall thin stripe statistics at a candidate divider x (scoreVLineAtX with
bandH 160, stripeW 5). -/
structure VStripe where
  x : ℤ
  nonWhiteFrac : ℚ
  darkFrac : ℚ
  deriving Repr, DecidableEq

/-- scoreVLineAtX: 5px-wide, 160px-tall stripe fractions centered at x. -/
def scoreVLineAtX (pre : Pre) (x : ℚ) (yCenter : ℤ) : Option VStripe :=
  let w : ℤ := pre.w
  let h : ℤ := pre.h
  let x0 := clampZ (jsFloor (x - 5/2)) 0 (w - 1)
  let x1 := clampZ (x0 + 5) (x0 + 1) w
  let y0 := clampZ (yCenter - 80) 0 (h - 1)
  let y1 := clampZ (y0 + 160) (y0 + 1) h
  let area := (x1 - x0) * (y1 - y0)
  if area = 0 then none
  else
    let whiteCount := rectSum (whiteMask pre) x0 y0 x1 y1
    let nonWhiteFrac := ((area - whiteCount : ℤ) : ℚ) / (area : ℚ)
    let darkFrac := (rectSum (darkMask pre) x0 y0 x1 y1 : ℚ) / (area : ℚ)
    some ⟨jsFloor x, nonWhiteFrac, darkFrac⟩

/-- Probe offsets -searchPx..searchPx in steps of scanStep. -/
def probeOffsets (searchPx scanStep : ℕ) : List ℤ :=
  (List.range (2 * searchPx / scanStep + 1)).map
    (fun k : ℕ => (-(searchPx : ℤ)) + (k : ℤ) * scanStep)

/-- One probe of the divider search: position validity, stripe scoring, the
0.18 non-white acceptance threshold and the strictly-improving best update. -/
def divStep (pre : Pre) (yCenter : ℤ) (xGuess : ℚ)
    (best : Option (VStripe × ℚ)) (dx : ℤ) : Option (VStripe × ℚ) :=
  let x := jsFloor (xGuess + (dx : ℚ))
  if x ≤ 0 ∨ (pre.w : ℤ) ≤ x then best
  else
    match scoreVLineAtX pre (x : ℚ) yCenter with
    | none => best
    | some s =>
      if s.nonWhiteFrac < 18/100 then best
      else
        let score := s.nonWhiteFrac + s.darkFrac * (25/100)
        if best.all (fun b => decide (b.2 < score)) = true then some (s, score)
        else best

/-- findBestDividerNearX: scan 40px either side of xGuess at the given step (the source
default is scanStep 1), keep candidates whose stripe non-white fraction is at
least 0.18, and take the strictly best score nonWhiteFrac + 0.25 * darkFrac. -/
def findBestDividerNearX (pre : Pre) (yCenter : ℤ) (xGuess : ℚ)
    (scanStep : ℕ) : Option (VStripe × ℚ) :=
  (probeOffsets 40 scanStep).foldl (divStep pre yCenter xGuess) none

/-- Divider detector result. -/
structure DividersResult where
  ok : Bool
  yCenter : ℤ
  xs : List ℤ
  reason : String
  deriving Repr, DecidableEq

/-- Anchor scan: first x in the list whose stripe passes the 0.22 non-white
threshold. -/
def anchorScan (pre : Pre) (yCenter : ℤ) (xs : List ℤ) : Option VStripe :=
  xs.findSome? (fun x =>
    match scoreVLineAtX pre (x : ℚ) yCenter with
    | none => none
    | some s => if s.nonWhiteFrac < 22/100 then none else some s)

/-- Walk of the six expected divider positions; fails with the index of the
first position where no candidate qualifies. -/
def dividerWalk (pre : Pre) (yCenter : ℤ) (leftX : ℤ) (step : ℚ) :
    ℕ → List ℤ → Except ℕ (List ℤ)
  | 0, acc => Except.ok acc.reverse
  | n + 1, acc =>
    let i := 6 - (n + 1)
    let guess := (leftX : ℚ) + step * (i : ℚ)
    match findBestDividerNearX pre yCenter guess 1 with
    | none => Except.error i
    | some b => dividerWalk pre yCenter leftX step n (b.1.x :: acc)

/-- findDayDividers with defaults (expected 6 dividers, anchors scanned in
[0.10w, 0.985w] at step 2, right anchor rejected within 50px of the left). -/
def findDayDividers (pre : Pre) (vTicks : List ℚ) : DividersResult :=
  let w : ℤ := pre.w
  let yCenter := pickDayBandY pre vTicks
  let xStart := jsFloor ((w : ℚ) * (10/100))
  let xEnd := jsFloor ((w : ℚ) * (985/1000))
  let ascend := (List.range ((xEnd - xStart) / 2 + 1).toNat).map
    (fun k : ℕ => xStart + 2 * (k : ℤ))
  match anchorScan pre yCenter ascend with
  | none => ⟨false, yCenter, [], "could not find leftmost divider"⟩
  | some left =>
    match anchorScan pre yCenter ascend.reverse with
    | none => ⟨false, yCenter, [], "could not find rightmost divider"⟩
    | some right =>
      if right.x ≤ left.x + 50 then
        ⟨false, yCenter, [], "could not find rightmost divider"⟩
      else
        let span := right.x - left.x
        let step : ℚ := (span : ℚ) / 5
        match dividerWalk pre yCenter left.x step 6 [] with
        | Except.error i => ⟨false, yCenter, [], "missing divider " ++ toString i⟩
        | Except.ok xs => ⟨xs.length = 6, yCenter, xs, "ok"⟩

/-- Frozen day regions result. -/
structure FreezeResult where
  ok : Bool
  regions : Option DayRegions
  xs : List ℤ
  reason : String
  deriving Repr, DecidableEq

/-- freezeDayRegionsFromDividers: sort the six divider xs ascending and take
the five consecutive intervals Monday..Friday. -/
def freezeDayRegionsFromDividers (divResult : DividersResult) : FreezeResult :=
  if !divResult.ok then ⟨false, none, [], "no dividers"⟩
  else
    let xs := jsSortBy (fun a b => a ≤ b) divResult.xs
    if xs.length = 6 then
      let regions : DayRegions :=
        { monday := ⟨xs.getD 0 0, xs.getD 1 0⟩
          tuesday := ⟨xs.getD 1 0, xs.getD 2 0⟩
          wednesday := ⟨xs.getD 2 0, xs.getD 3 0⟩
          thursday := ⟨xs.getD 3 0, xs.getD 4 0⟩
          friday := ⟨xs.getD 4 0, xs.getD 5 0⟩ }
      ⟨true, some regions, xs, "ok"⟩
    else ⟨false, none, [], "bad divider count"⟩

/-! ## Ladder extension cues (findBestHLinePeak / hasVerticalDayStructureAtY /
    hasRowLikeStructure / findBestLaneMarkNearY, app.js lines 2102-2435) -/

/-- The three candidate horizontal spans of findBestHLinePeak, widest first. -/
def hPeakSpans : List (ℚ × ℚ) :=
  [(8/100, 98/100), (12/100, 96/100), (18/100, 92/100)]

/-- findBestHLinePeak: scan the rows within the snap window of expectedY
(3px-tall band, kept inside the image), take the strictly best dark fraction
over the three spans, and accept it only at fraction at least 0.14.  Returns
the accepted row. -/
def findBestHLinePeak (pre : Pre) (expectedY snapWin : ℚ) : Option ℤ :=
  let w : ℤ := pre.w
  let h : ℤ := pre.h
  let yLo := clampZ (jsFloor (expectedY - snapWin)) 0 (h - 3)
  let yHi := clampZ (jsFloor (expectedY + snapWin)) 0 (h - 3)
  let ys := (List.range (yHi - yLo + 1).toNat).map (fun k : ℕ => yLo + (k : ℤ))
  let best := ys.foldl
    (fun best y =>
      hPeakSpans.foldl
        (fun best sp =>
          let x0 := clampZ (jsFloor ((w : ℚ) * sp.1)) 0 (w - 1)
          let x1 := clampZ (jsFloor ((w : ℚ) * sp.2)) (x0 + 1) w
          let score := rectSum (darkMask pre) x0 y x1 (y + 3)
          let area := (x1 - x0) * 3
          let frac : ℚ := if area = 0 then 0 else (score : ℚ) / (area : ℚ)
          if best.all (fun b => decide (b.2 < frac)) = true then some (y, frac) else best)
        best)
    (none : Option (ℤ × ℚ))
  match best with
  | none => none
  | some b => if b.2 < 14/100 then none else some b.1

/-- hasVerticalDayStructureAtY: at row y, each known divider x is re-searched
14px either side in steps of 2 for the best-scoring 9px-wide, 22px-tall
stripe; a divider clears when its best stripe is non-white at least 0.22 or
dark at least 0.06, and the check passes when at least requireCount dividers
clear. -/
def hasVerticalDayStructureAtY (pre : Pre) (y : ℚ) (dividerXs : List ℤ)
    (requireCount : ℕ) : Bool :=
  let w : ℤ := pre.w
  let h : ℤ := pre.h
  if dividerXs = [] then false
  else
    let y0 := clampZ (jsFloor (y - 11)) 0 (h - 1)
    let y1 := clampZ (y0 + 22) (y0 + 1) h
    let hits := dividerXs.countP (fun xc0 =>
      let xcBase := clampZ xc0 0 (w - 1)
      let best := (probeOffsets 14 2).foldl
        (fun best dx =>
          let xc := clampZ (xcBase + dx) 0 (w - 1)
          let x0 := clampZ (xc - 5) 0 (w - 1)
          let x1 := clampZ (x0 + 9) (x0 + 1) w
          let area := (x1 - x0) * (y1 - y0)
          if area ≤ 0 then best
          else
            let whiteCount := rectSum (whiteMask pre) x0 y0 x1 y1
            let nonWhiteFrac := ((area - whiteCount : ℤ) : ℚ) / (area : ℚ)
            let darkFrac := (rectSum (darkMask pre) x0 y0 x1 y1 : ℚ) / (area : ℚ)
            let score := nonWhiteFrac + (25/100) * darkFrac
            if best.all (fun b => decide (b.1 < score)) = true then
              some (score, nonWhiteFrac, darkFrac)
            else best)
        (none : Option (ℚ × ℚ × ℚ))
      match best with
      | none => false
      | some b => (22/100 : ℚ) ≤ b.2.1 || (6/100 : ℚ) ≤ b.2.2)
    decide (requireCount ≤ hits)

/-- Fallback spans of hasRowLikeStructure when no day regions are known. -/
def rowFallbackSpans : List (ℚ × ℚ) :=
  [(14/100, 30/100), (34/100, 50/100), (54/100, 70/100), (74/100, 90/100)]

/-- Row band evaluation of hasRowLikeStructure: non-white at least 0.06 and
dark at most 0.22 over a 10px-tall band. -/
def rowEvalBand (pre : Pre) (y0 y1 : ℤ) (bx0 bx1 : ℚ) : Option Bool :=
  let w : ℤ := pre.w
  let x0 := clampZ (jsFloor bx0) 0 (w - 1)
  let x1 := clampZ (jsFloor bx1) (x0 + 1) w
  let area := (x1 - x0) * (y1 - y0)
  if area ≤ 0 then none
  else
    let whiteCount := rectSum (whiteMask pre) x0 y0 x1 y1
    let nonWhiteFrac := ((area - whiteCount : ℤ) : ℚ) / (area : ℚ)
    let darkFrac := (rectSum (darkMask pre) x0 y0 x1 y1 : ℚ) / (area : ℚ)
    some ((6/100 : ℚ) ≤ nonWhiteFrac && darkFrac ≤ 22/100)

/-- hasRowLikeStructure: with day regions, the divider-trimmed interiors of
at least 3 of the 5 days must pass the row band test; without them, at least
max(2, half) of the fallback spans must pass.  Uses the spec-modelled
trimDayRegionByDivider. -/
def hasRowLikeStructure (pre : Pre) (y : ℚ) (dayRegions : Option DayRegions)
    (dividerXs : List ℤ) : Bool :=
  let h : ℤ := pre.h
  let y0 := clampZ (jsFloor (y - 5)) 0 (h - 1)
  let y1 := clampZ (y0 + 10) (y0 + 1) h
  match dayRegions with
  | some regs =>
    if dividerXs = [] then
      let oks := rowFallbackSpans.filterMap
        (fun sp => rowEvalBand pre y0 y1 ((pre.w : ℚ) * sp.1) ((pre.w : ℚ) * sp.2))
      decide (max 2 ((oks.length + 1) / 2) ≤ oks.countP id)
    else
      let okCount := regs.values.countP (fun r =>
        let t := trimDayRegionByDivider r dividerXs 6
        let span := t.x1 - t.x0
        let inset := clampZ (jsRound ((span : ℚ) * (10/100))) 6 22
        match rowEvalBand pre y0 y1 ((t.x0 + inset : ℤ) : ℚ) ((t.x1 - inset : ℤ) : ℚ) with
        | none => false
        | some ok => ok)
      decide (3 ≤ okCount)
  | none =>
    let oks := rowFallbackSpans.filterMap
      (fun sp => rowEvalBand pre y0 y1 ((pre.w : ℚ) * sp.1) ((pre.w : ℚ) * sp.2))
    decide (max 2 ((oks.length + 1) / 2) ≤ oks.countP id)

/-- findBestLaneMarkNearY with defaults (14px-tall band, minimum non-white
fraction 0.05): scans band tops within the window, scores non-white plus a
quarter of dark, and returns the band center of the strictly best band when
it carries enough non-white evidence. -/
def findBestLaneMarkNearY (pre : Pre) (expectedY : ℚ) (lane : Option LanePx)
    (snapWin : ℚ) : Option (ℤ × ℚ) :=
  match lane with
  | none => none
  | some l =>
    let w : ℤ := pre.w
    let h : ℤ := pre.h
    let x0 := clampZ l.x0 0 (w - 1)
    let x1 := clampZ l.x1 (x0 + 1) w
    let yLo := clampZ (jsFloor (expectedY - snapWin)) 0 (h - 14)
    let yHi := clampZ (jsFloor (expectedY + snapWin)) 0 (h - 14)
    let ys := (List.range (yHi - yLo + 1).toNat).map (fun k : ℕ => yLo + (k : ℤ))
    let best := ys.foldl
      (fun best y0 =>
        let y1 := y0 + 14
        let area := (x1 - x0) * (y1 - y0)
        if area ≤ 0 then best
        else
          let whiteCount := rectSum (whiteMask pre) x0 y0 x1 y1
          let nonWhiteFrac := ((area - whiteCount : ℤ) : ℚ) / (area : ℚ)
          let darkFrac := (rectSum (darkMask pre) x0 y0 x1 y1 : ℚ) / (area : ℚ)
          let score := nonWhiteFrac + (25/100) * darkFrac
          if best.all (fun b => decide (b.2.2 < score)) = true then
            some (y0 + 7, nonWhiteFrac, score)
          else best)
      (none : Option (ℤ × ℚ × ℚ))
    match best with
    | none => none
    | some b => if b.2.1 < 5/100 then none else some (b.1, b.2.1)

/-! ## Global ladder extension (buildGlobalTickLadder, app.js lines
    2437-2623).  The while loop runs while steps < maxSteps = 120; each
    iteration either accepts one tick and continues, burns the one-time gap
    allowance, or stops (possibly appending one terminal-recovery tick).
    State: accepted ticks so far (reversed), the unrounded cursor prev, the
    consecutive vertical-accept streak, and the gap-allowance flag. -/

/-- Ladder result. -/
structure LadderResult where
  ok : Bool
  ticks : List ℚ
  dy : ℚ
  snapWin : ℚ
  stopReason : String
  deriving Repr, DecidableEq

/-- One-invocation state of the extension loop. -/
structure LadderState where
  out : List ℚ
  prev : ℚ
  consecutiveVGood : ℕ
  allowedGapUsed : ℕ
  deriving Repr, DecidableEq

/-- The extension loop, fuel = remaining steps. -/
def ladderGo (pre : Pre) (dy snapWin : ℚ) (dividerXs : List ℤ)
    (dayRegions : Option DayRegions) (tickLane : Option LanePx) :
    ℕ → LadderState → List ℚ × String
  | 0, st => (st.out.reverse, "unknown")
  | fuel + 1, st =>
    let expected := st.prev + dy
    if (pre.h : ℚ) - 2 ≤ expected then (st.out.reverse, "hit image bottom")
    else
      match findBestHLinePeak pre expected snapWin with
      | some y =>
        ladderGo pre dy snapWin dividerXs dayRegions tickLane fuel
          ⟨(y : ℚ) :: st.out, (y : ℚ), 0, 0⟩
      | none =>
        if hasVerticalDayStructureAtY pre expected dividerXs 3 then
          if !hasRowLikeStructure pre expected dayRegions dividerXs then
            (st.out.reverse, "left table (row band failed)")
          else
            ladderGo pre dy snapWin dividerXs dayRegions tickLane fuel
              ⟨(jsRound expected : ℚ) :: st.out, expected,
                st.consecutiveVGood + 1, 0⟩
        else
          let stableRun := 5 ≤ st.consecutiveVGood
          if stableRun ∧ hasVerticalDayStructureAtY pre expected dividerXs 2 then
            if !hasRowLikeStructure pre expected dayRegions dividerXs then
              (st.out.reverse, "left table (row band failed on retry)")
            else
              ladderGo pre dy snapWin dividerXs dayRegions tickLane fuel
                ⟨(jsRound expected : ℚ) :: st.out, expected, 1, 0⟩
          else if stableRun ∧ st.allowedGapUsed = 0 then
            ladderGo pre dy snapWin dividerXs dayRegions tickLane fuel
              ⟨st.out, st.prev, st.consecutiveVGood, 1⟩
          else
            let snapWinTerm := clampQ (jsRound (dy * (7/10)) : ℚ) 10 28
            let out1 :=
              match findBestLaneMarkNearY pre expected tickLane snapWinTerm with
              | some lb =>
                if |(lb.1 : ℚ) - expected| ≤ snapWinTerm then
                  (jsRound (lb.1 : ℚ) : ℚ) :: st.out
                else st.out
              | none => st.out
            (out1.reverse, "no strong line peak")

/-- buildGlobalTickLadder with defaults (snapFrac 0.12, snap window clamped
to [4,18], 120 steps): restarts from the first validated tick and extends
one dy-step at a time. -/
def buildGlobalTickLadder (pre : Pre) (vTicks : List ℚ) (dy : ℚ)
    (dividerXs : List ℤ) (dayRegions : Option DayRegions)
    (tickLane : Option LanePx) : LadderResult :=
  if vTicks.length < 2 then ⟨false, vTicks, dy, 0, "missing inputs"⟩
  else
    let snapWin := clampQ (jsRound (dy * (12/100)) : ℚ) 4 18
    let t0 := vTicks.getD 0 0
    let res := ladderGo pre dy snapWin dividerXs dayRegions tickLane 120
      ⟨[t0], t0, 0, 0⟩
    ⟨2 ≤ res.1.length, res.1, dy, snapWin, res.2⟩

/-! ## Slot bands (estimateLineBandAtTick / buildSlotBandsFromTicks, app.js
    lines 2840-2890) -/

/-- Dark-row predicate inside the lane, with the lane-local threshold. -/
def isDarkRowLane (pre : Pre) (x0 x1 thresh : ℤ) (y : ℤ) : Bool :=
  if y < 0 ∨ (pre.h : ℤ) ≤ y then false
  else decide (thresh ≤ (rectSum (darkMask pre) x0 y x1 (y + 1) : ℤ))

/-- Upward growth while the row above stays dark. -/
def growUp (pred : ℤ → Bool) : ℕ → ℤ → ℤ
  | 0, y => y
  | fuel + 1, y => if 0 < y ∧ pred (y - 1) then growUp pred fuel (y - 1) else y

/-- Downward growth while the row below stays dark. -/
def growDown (pred : ℤ → Bool) (hLim : ℤ) : ℕ → ℤ → ℤ
  | 0, y => y
  | fuel + 1, y =>
    if y < hLim - 1 ∧ pred (y + 1) then growDown pred hLim fuel (y + 1) else y

/-- estimateLineBandAtTick: grow outward from the tick center while adjacent
lane rows stay dark (threshold 12 percent of lane width, at least 2). -/
def estimateLineBandAtTick (pre : Pre) (yCenter : ℚ) (lane : LaneFrac) :
    ℤ × ℤ × ℤ :=
  let w : ℤ := pre.w
  let h : ℤ := pre.h
  let x0 := clampZ (jsFloor ((w : ℚ) * lane.x0Frac)) 0 (w - 1)
  let x1 := clampZ (jsFloor ((w : ℚ) * lane.x1Frac)) (x0 + 1) w
  let thresh := max 2 (jsFloor (((x1 - x0 : ℤ) : ℚ) * (12/100)))
  let yC := clampZ (jsFloor yCenter) 0 (h - 1)
  let y0 := growUp (isDarkRowLane pre x0 x1 thresh) pre.h yC
  let y1 := growDown (isDarkRowLane pre x0 x1 thresh) h pre.h yC
  (y0, y1 + 1, yC)

/-- buildSlotBandsFromTicks: adjacent line bands yield one slot from the
upper line's bottom edge to the lower line's top edge; bands shorter than
8px are discarded. -/
def buildSlotBandsFromTicks (pre : Pre) (ticks : List ℚ) (lane : LaneFrac) :
    List SlotBand :=
  if ticks.length < 2 then []
  else
    let h : ℤ := pre.h
    let bands := ticks.map (estimateLineBandAtTick pre · lane)
    (bands.zip bands.tail).filterMap (fun p =>
      let yStart := clampZ p.1.2.1 0 (h - 1)
      let yEnd := clampZ p.2.1 1 h
      if 8 ≤ yEnd - yStart then some ⟨yStart, yEnd, p.1.2.2, p.2.2.2⟩ else none)

/-! ## Background calibration (calibrateFridayBackground /
    calibrateGlobalBackground, app.js lines 2916-3051 and 3213-3291).
    Constants: CAL_PICK_TOP 3, BG_TOL_BASE 34, BG_TOL_MAX 60, 60 samples per
    chosen slot, acceptance threshold 0.70 mean whiteness. -/

/-- Candidate cell with its prefix-sum whiteness. -/
structure CalCell where
  x0 : ℤ
  x1 : ℤ
  y0 : ℤ
  y1 : ℤ
  whiteFrac : ℚ
  deriving Repr, DecidableEq

/-- Random RGB draws over the chosen cells, 60 samples each, two draws per
sample.  Friday clamps each coordinate into the image before truncation; the
global fallback truncates directly. -/
def calSamples (pre : Pre) (rng : ℕ → ℚ) (clamped : Bool) :
    List CalCell → ℕ → List (ℕ × ℕ × ℕ)
  | [], _ => []
  | c :: rest, k =>
    let here := (List.range 60).map (fun i =>
      let xq := (c.x0 : ℚ) + rng (k + 2 * i) * ((c.x1 : ℚ) - c.x0)
      let yq := (c.y0 : ℚ) + rng (k + 2 * i + 1) * ((c.y1 : ℚ) - c.y0)
      let x := if clamped then jsTrunc (clampQ xq 0 ((pre.w : ℚ) - 1)) else jsTrunc xq
      let y := if clamped then jsTrunc (clampQ yq 0 ((pre.h : ℚ) - 1)) else jsTrunc yq
      (pxR pre x.toNat y.toNat, pxG pre x.toNat y.toNat, pxB pre x.toNat y.toNat))
    here ++ calSamples pre rng clamped rest (k + 120)

/-- Upper median of a channel list: sorted ascending, entry at length >> 1. -/
def chanMedian (vs : List ℕ) : ℕ :=
  (jsSortBy (fun a b => a ≤ b) vs).getD (vs.length / 2) 0

/-- MAD-like spread: upper median of the absolute deviations. -/
def chanMad (vs : List ℕ) (m : ℕ) : ℤ :=
  (jsSortBy (fun a b => a ≤ b) (vs.map (fun v => |(v : ℤ) - m|))).getD
    (vs.length / 2) 0

/-- Descending stable sort by whiteness, as Array.prototype.sort with the
comparator (a, b) => b.whiteFrac - a.whiteFrac. -/
def sortByWhiteDesc (cs : List CalCell) : List CalCell :=
  jsSortBy (fun a b => b.whiteFrac ≤ a.whiteFrac) cs

/-- calibrateFridayBackground: rank the bottom 8 Friday slots by whiteness,
take the top 3, require mean whiteness at least 0.70, then sample 60 random
pixels per chosen slot and freeze the per-channel medians with tolerance
clamp(round(34 + maxMAD * 2.5), 34, 60).  Returns the background and the
next rng index (draws are consumed only on the sampling path). -/
def calibrateFridayBackground (pre : Pre) (dayRegions : DayRegions)
    (slotBands : List SlotBand) (rng : ℕ → ℚ) (k : ℕ) :
    Option BgColor × ℕ :=
  if slotBands.length < 4 then (none, k)
  else
    let w : ℤ := pre.w
    let h : ℤ := pre.h
    let fx0 := dayRegions.friday.x0
    let fx1 := dayRegions.friday.x1
    let cands := (slotBands.drop (slotBands.length - 8)).map (fun s =>
      let x0 := clampZ (fx0 + 8) 0 (w - 1)
      let x1 := clampZ (fx1 - 8) (x0 + 1) w
      let y0 := clampZ (s.yStart + 2) 0 (h - 1)
      let y1 := clampZ (s.yEnd - 2) (y0 + 1) h
      CalCell.mk x0 x1 y0 y1 (rectWhiteFrac pre x0 y0 x1 y1))
    let chosen := (sortByWhiteDesc cands).take 3
    let mean := (chosen.map (·.whiteFrac)).sum / (chosen.length : ℚ)
    if mean < 70/100 then (none, k)
    else
      let samples := calSamples pre rng true chosen k
      if samples.length < 80 then (none, k + 120 * chosen.length)
      else
        let rs := samples.map (·.1)
        let gs := samples.map (·.2.1)
        let bs := samples.map (·.2.2)
        let rMed := chanMedian rs
        let gMed := chanMedian gs
        let bMed := chanMedian bs
        let spread := max (chanMad rs rMed) (max (chanMad gs gMed) (chanMad bs bMed))
        let tol := clampQ (jsRound ((34 : ℚ) + (spread : ℚ) * (5/2)) : ℚ) 34 60
        (some ⟨rMed, gMed, bMed, tol⟩, k + 120 * chosen.length)

/-- calibrateGlobalBackground: the same ranking and sampling pooled over all
(day, slot) cells, with the fixed tolerance clamp(34 + 10, 34, 60). -/
def calibrateGlobalBackground (pre : Pre) (dayRegions : DayRegions)
    (slotBands : List SlotBand) (rng : ℕ → ℚ) (k : ℕ) :
    Option BgColor × ℕ :=
  let w : ℤ := pre.w
  let h : ℤ := pre.h
  let cands := dayRegions.values.flatMap (fun day =>
    slotBands.map (fun s =>
      let y0 := clampZ (s.yStart + 2) 0 (h - 1)
      let y1 := clampZ (s.yEnd - 2) (y0 + 1) h
      let rx0 := clampZ (day.x0 + 8) 0 (w - 1)
      let rx1 := clampZ (day.x1 - 8) (rx0 + 1) w
      CalCell.mk rx0 rx1 y0 y1 (rectWhiteFrac pre rx0 y0 rx1 y1)))
  let chosen := (sortByWhiteDesc cands).take 3
  let mean := (chosen.map (·.whiteFrac)).sum / (chosen.length : ℚ)
  if mean < 70/100 then (none, k)
  else
    let samples := calSamples pre rng false chosen k
    let rs := samples.map (·.1)
    let gs := samples.map (·.2.1)
    let bs := samples.map (·.2.2)
    let tol := clampQ (jsRound ((34 : ℚ) + 10) : ℚ) 34 60
    (some ⟨chanMedian rs, chanMedian gs, chanMedian bs, tol⟩,
      k + 120 * chosen.length)

/-! ## NavSnapshot construction and the external entry point
    (computeFrozenNavFromPre / buildAndPublishNav, app.js lines 3403-3558).
    The incoming value of the window.__TICK_LANE__ global is an explicit
    parameter; the builder overwrites it before any stage reads it and every
    stage failure collapses the build to none. -/

/-- Calibration step of the NavSnapshot build: Friday-first, the global
fallback tried only when Friday fails, failure when both fail. -/
def calibrationCascade (pre : Pre) (regions : DayRegions)
    (slotBands : List SlotBand) (rng : ℕ → ℚ) (k : ℕ) :
    Option BgColor × ℕ :=
  let calF := calibrateFridayBackground pre regions slotBands rng k
  match calF.1 with
  | some bg => (some bg, calF.2)
  | none => calibrateGlobalBackground pre regions slotBands rng calF.2

/-- Calibration stage of the staged NavSnapshot build (the tail of
computeFrozenNavFromPre, with every shared intermediate passed
explicitly). -/
def navStageCal (pre : Pre) (rng : ℕ → ℚ) (k : ℕ) (tickLane : LanePx)
    (regions : DayRegions) (fxs : List ℤ) (gticks : List ℚ)
    (slotBands : List SlotBand) : Option Nav × Option LanePx × ℕ :=
  let cal := calibrationCascade pre regions slotBands rng k
  match cal.1 with
  | some bg =>
    (some ⟨regions, slotBands, gticks, bg, fxs, "8:00 AM"⟩, some tickLane, cal.2)
  | none => (none, some tickLane, cal.2)

/-- Slot-band stage of the staged NavSnapshot build. -/
def navStageSlots (pre : Pre) (rng : ℕ → ℚ) (k : ℕ) (lane : LaneFrac)
    (tickLane : LanePx) (regions : DayRegions) (fxs : List ℤ)
    (gticks : List ℚ) : Option Nav × Option LanePx × ℕ :=
  let slotBands := buildSlotBandsFromTicks pre gticks lane
  if slotBands.length < 1 then (none, some tickLane, k)
  else navStageCal pre rng k tickLane regions fxs gticks slotBands

/-- Region-freeze and ladder stage of the staged NavSnapshot build. -/
def navStageFreeze (pre : Pre) (rng : ℕ → ℚ) (k : ℕ) (lane : LaneFrac)
    (tickLane : LanePx) (vticks : List ℚ) (dy : ℚ) (fr : FreezeResult) :
    Option Nav × Option LanePx × ℕ :=
  match fr.regions with
  | none => (none, some tickLane, k)
  | some regions =>
    if !fr.ok ∨ fr.xs.length ≠ 6 then (none, some tickLane, k)
    else
      let g := buildGlobalTickLadder pre vticks dy fr.xs (some regions)
        (some tickLane)
      if !g.ok ∨ g.ticks.length < 2 then (none, some tickLane, k)
      else navStageSlots pre rng k lane tickLane regions fr.xs g.ticks

/-- Divider stage of the staged NavSnapshot build. -/
def navStageDividers (pre : Pre) (rng : ℕ → ℚ) (k : ℕ) (lane : LaneFrac)
    (tickLane : LanePx) (vticks : List ℚ) (dy : ℚ) (divRes : DividersResult) :
    Option Nav × Option LanePx × ℕ :=
  if !divRes.ok ∨ divRes.xs.length < 6 then (none, some tickLane, k)
  else
    let normXs :=
      if divRes.xs.length = 6 then divRes.xs else (divRes.xs.drop 1).take 6
    navStageFreeze pre rng k lane tickLane vticks dy
      (freezeDayRegionsFromDividers { divRes with xs := normXs })

/-- Validation stage of the staged NavSnapshot build. -/
def navStageValidate (pre : Pre) (rng : ℕ → ℚ) (k : ℕ) (lane : LaneFrac)
    (tickLane : LanePx) (v : VTicksResult) : Option Nav × Option LanePx × ℕ :=
  if !v.ok ∨ v.ticks.length < 2 then (none, some tickLane, k)
  else
    match v.dy with
    | none => (none, some tickLane, k)
    | some dy =>
      navStageDividers pre rng k lane tickLane v.ticks dy
        (findDayDividers pre v.ticks)

/-- computeFrozenNavFromPre: full staged build.  Returns the nav (none on
any stage failure), the published tick-lane global, and the next rng index.
The source's single function is embedded as a composition of stage
functions, one per guarded block, with every shared intermediate passed
explicitly. -/
def computeFrozenNavFromPre (_tickLane0 : Option LanePx) (pre : Pre)
    (rng : ℕ → ℚ) (k : ℕ) : Option Nav × Option LanePx × ℕ :=
  let lane := pickBestTickLane pre
  let tickLane : LanePx :=
    ⟨jsFloor ((pre.w : ℚ) * lane.x0Frac), jsFloor ((pre.w : ℚ) * lane.x1Frac)⟩
  let rawTicks := detectTimeTicksFromLeftLane pre lane
  if rawTicks.length < 2 then (none, some tickLane, k)
  else
    navStageValidate pre rng k lane tickLane
      (validateTicksFromFirst (rawTicks.map (fun t => (t : ℚ))))

/-- Result shape of buildAndPublishNav. -/
structure NavBuildResult where
  ok : Bool
  reason : String
  nav : Option Nav
  deriving Repr, DecidableEq

/-- buildAndPublishNav: the external caller of the NavSnapshot build.  A
null nav from the builder is reported with the fixed generic reason; the
subsequent field checks always pass on a typed nav. -/
def buildAndPublishNav (tickLane0 : Option LanePx) (pre : Pre) (rng : ℕ → ℚ)
    (k : ℕ) : NavBuildResult × Option LanePx × ℕ :=
  let r := computeFrozenNavFromPre tickLane0 pre rng k
  match r.1 with
  | none => (⟨false, "Nav builder returned null/undefined", none⟩, r.2.1, r.2.2)
  | some nav => (⟨true, "ok", some nav⟩, r.2.1, r.2.2)

/-- The full pipeline: NavSnapshot construction followed by availability
classification on the same buffer and rng stream. -/
def runFullPipeline (tickLane0 : Option LanePx) (pre : Pre) (rng : ℕ → ℚ)
    (k : ℕ) : Option (Nav × Avail) × Option LanePx × ℕ :=
  match computeFrozenNavFromPre tickLane0 pre rng k with
  | (some nav, s1, k1) =>
    match computeAvailFromFrozenNav pre nav rng k1 with
    | (some av, k2) => (some (nav, av), s1, k2)
    | (none, k2) => (none, s1, k2)
  | (none, s1, k1) => (none, s1, k1)

/-! ## Concrete inputs used to evaluate the pipeline at specific images.
    Pixels are synthesized by simple region tests; 0 is black (dark and
    non-white), 255 is white. -/

/-- Constant-zero random stream. -/
def rngZero : ℕ → ℚ := fun _ => 0

/-- Image exercising a failing validation stage: two lane marks 100px apart
(rows 20-21 and 120-121 in columns 0-1) on a 40x130 white canvas, so the
raw ticks validate with median spacing 100, outside [10,90]. -/
def imgBadDy : ℕ → ℕ := fun p =>
  let q := p / 4
  let y := q / 40
  let x := q % 40
  if x < 2 ∧ (y = 20 ∨ y = 21 ∨ y = 120 ∨ y = 121) then 0 else 255

/-- 40x130 buffer over imgBadDy. -/
def preBadDy : Pre := ⟨40, 130, imgBadDy⟩

/-- Raw tick list whose median positive spacing is the fractional 23/2:
consecutive differences 11, 12, 11, 12, 11, 17. -/
def fracRawTicks : List ℚ := [7, 18, 30, 41, 53, 64, 81]

/-- Image with a single dark row at y = 14 on a 50x27 white canvas: the
first ladder extension step from tick 7 with dy 23/2 finds its horizontal
peak at the floored lower edge of the scan window. -/
def imgLadderEdge : ℕ → ℕ := fun p =>
  let q := p / 4
  let y := q / 50
  if y = 14 then 0 else 255

/-- 50x27 buffer over imgLadderEdge. -/
def preLadderEdge : Pre := ⟨50, 27, imgLadderEdge⟩

/-- Image for the divider-search step comparison: one black 3px-wide
vertical line in columns 36-38 of a 60x8 white canvas.  The best-scoring
5px stripes are exactly those at x in {37, 38, 39}. -/
def imgDivLine : ℕ → ℕ := fun p =>
  let q := p / 4
  let x := q % 60
  if x = 36 ∨ x = 37 ∨ x = 38 then 0 else 255

/-- 60x8 buffer over imgDivLine. -/
def preDivLine : Pre := ⟨60, 8, imgDivLine⟩

/-- Image for the divider-walk witness: two black 3px bars (columns 5-7 and
59-61) on a 64x6 white canvas, far enough apart to anchor left and right;
every windowed search finds a qualifying stripe, so the walk returns 6 xs. -/
def imgDiv6 : ℕ → ℕ := fun p =>
  let x := (p / 4) % 64
  if x = 5 ∨ x = 6 ∨ x = 7 ∨ x = 59 ∨ x = 60 ∨ x = 61 then 0 else 255

/-- 64x6 buffer over imgDiv6. -/
def preDiv6 : Pre := ⟨64, 6, imgDiv6⟩

/-! ## Saved-schedule query core (buildRangesFromMask and the per-record body
    of queryAllSavedSchedulesDayRange, app.js lines 1006-1167).  Ranges are
    kept in minutes; the source formats each endpoint with minutesToTimeStr
    just before returning. -/

/-- Merged-range builder over a boolean mask restricted to slot indices
in [i0, i1): state is the ranges emitted so far plus the open run start. -/
def rangesLoop (mask : List Bool) (anchorMin step clampStartMin clampEndMin : ℤ) :
    List ℕ → List (ℤ × ℤ) × Option ℕ → List (ℤ × ℤ) × Option ℕ
  | [], st => st
  | i :: rest, (ranges, runStart) =>
    if mask.getD i false then
      rangesLoop mask anchorMin step clampStartMin clampEndMin rest
        (ranges, some (runStart.getD i))
    else
      match runStart with
      | none => rangesLoop mask anchorMin step clampStartMin clampEndMin rest (ranges, none)
      | some r =>
        let runStartMin := max clampStartMin (anchorMin + r * step)
        let runEndMin := min clampEndMin (anchorMin + (i : ℤ) * step)
        let ranges' :=
          if runStartMin < runEndMin then ranges ++ [(runStartMin, runEndMin)] else ranges
        rangesLoop mask anchorMin step clampStartMin clampEndMin rest (ranges', none)

/-- buildRangesFromMask: walk indices i0 ≤ i < i1, then close a trailing run
at clampEndMin. -/
def buildRangesFromMask (mask : List Bool) (i0 i1 : ℕ)
    (anchorMin step clampStartMin clampEndMin : ℤ) : List (ℤ × ℤ) :=
  let st := rangesLoop mask anchorMin step clampStartMin clampEndMin
    ((List.range i1).drop i0) ([], none)
  match st.2 with
  | none => st.1
  | some r =>
    let runStartMin := max clampStartMin (anchorMin + r * step)
    let runEndMin := clampEndMin
    if runStartMin < runEndMin then st.1 ++ [(runStartMin, runEndMin)] else st.1

/-- Per-record body of queryAllSavedSchedulesDayRange, numeric part: computes
the clamped window, slot index range, derived free mask and both range lists.
Returns none where the record is skipped (window outside schedule coverage).
slotsFinal is dayArr.length, per the guard dayArr.length === slotsFinal. -/
def queryRecordRanges (startMin endMin anchorMin : ℤ)
    (dayArr workArr : List Bool) : Option (List (ℤ × ℤ) × List (ℤ × ℤ)) :=
  let step : ℤ := 30
  let slotsFinal : ℕ := dayArr.length
  let schedStart := anchorMin
  let schedEnd := anchorMin + (slotsFinal : ℤ) * step
  let clampStart := max startMin schedStart
  let clampEnd := min endMin schedEnd
  if clampEnd ≤ clampStart then none
  else
    let i0 : ℕ := (max 0 (jsFloor (((clampStart - anchorMin) : ℚ) / (step : ℚ)))).toNat
    let i1 : ℕ := min slotsFinal (jsCeil (((clampEnd - anchorMin) : ℚ) / (step : ℚ))).toNat
    let freeMask :=
      if workArr.length = slotsFinal then
        (List.range slotsFinal).map
          (fun i => dayArr.getD i false && !(workArr.getD i false))
      else dayArr
    let freeRanges := buildRangesFromMask freeMask i0 i1 anchorMin step startMin endMin
    let workRanges :=
      if workArr.length = slotsFinal then
        buildRangesFromMask workArr i0 i1 anchorMin step startMin endMin
      else []
    some (freeRanges, workRanges)

/-! ## Claim-side formulations.  These definitions restate, in the words of
    the specification, the quantities the claims speak about; the claim
    theorems relate them to the source embedding above. -/

/-- The pixels drawn by one cell classification: 140 samples from the
inset cell rectangle. -/
def cellSamplePixels (pre : Pre) (slot : SlotBand) (region : Region)
    (rng : ℕ → ℚ) (k : ℕ) : List (ℕ × ℕ × ℕ) :=
  let r := sampleRect pre slot region 8 2
  (List.range 140).map (fun i => samplePixel pre rng k i r.1 r.2.1 r.2.2.1 r.2.2.2)

/-- Fraction of the 140 samples within the background tolerance. -/
def specBgFrac (pre : Pre) (slot : SlotBand) (region : Region) (bg : BgColor)
    (rng : ℕ → ℚ) (k : ℕ) : ℚ :=
  ((cellSamplePixels pre slot region rng k).countP
    (fun p => isBgMatch p.1 p.2.1 p.2.2 bg) : ℚ) / 140

/-- Fraction of the 140 samples that are non-near-white (the ink fraction). -/
def specInkFrac (pre : Pre) (slot : SlotBand) (region : Region)
    (rng : ℕ → ℚ) (k : ℕ) : ℚ :=
  ((cellSamplePixels pre slot region rng k).countP
    (fun p => !isNearWhite p.1 p.2.1 p.2.2) : ℚ) / 140

/-- Fraction of the 140 samples that are occupied: non-near-white AND not
purple AND not a background match. -/
def specOccupiedFrac (pre : Pre) (slot : SlotBand) (region : Region)
    (bg : BgColor) (rng : ℕ → ℚ) (k : ℕ) : ℚ :=
  ((cellSamplePixels pre slot region rng k).countP
    (fun p => !isNearWhite p.1 p.2.1 p.2.2 && !isPurpleMatch p.1 p.2.1 p.2.2 &&
      !isBgMatch p.1 p.2.1 p.2.2 bg) : ℚ) / 140

/-- The 160 pixels drawn by one work-marker measurement. -/
def workSamplePixels (pre : Pre) (slot : SlotBand) (region : Region)
    (rng : ℕ → ℚ) (k : ℕ) : List (ℕ × ℕ × ℕ) :=
  let r := sampleRect pre slot region 8 2
  (List.range 160).map (fun i => samplePixel pre rng k i r.1 r.2.1 r.2.2.1 r.2.2.2)

/-- Fraction of the 160 samples with every channel within tolerance 55 of
the reference purple (213, 43, 255). -/
def specPurpleFrac (pre : Pre) (slot : SlotBand) (region : Region)
    (rng : ℕ → ℚ) (k : ℕ) : ℚ :=
  ((workSamplePixels pre slot region rng k).countP
    (fun p => isPurpleMatch p.1 p.2.1 p.2.2) : ℚ) / 160

/-- The unread rng index when the per-day loop reaches cell i: every earlier
cell consumed 320 draws for its purple measurement plus 280 more when its
busy/free classification ran. -/
def cellOffset (pre : Pre) (region : Region) (rng : ℕ → ℚ) :
    List SlotBand → ℕ → ℕ → ℕ
  | _, k, 0 => k
  | [], k, _ + 1 => k
  | slot :: rest, k, i + 1 =>
    if (18/100 : ℚ) ≤ measurePurpleFrac pre slot region rng k then
      cellOffset pre region rng rest (k + 320) i
    else
      cellOffset pre region rng rest (k + 320 + 280) i

/-- Nearest unused later raw tick within the snap window, stated as the
claim puts it: among indices at or past the cursor whose tick lies within
the snap window of the expected position, the one at minimal distance,
earliest index on ties. -/
def specAccept (raw : List ℚ) (expected snapWin : ℚ) (k : ℕ) :
    Option (ℚ × ℕ) :=
  let cands := ((List.range raw.length).drop k).filterMap (fun i =>
    let d := |raw.getD i 0 - expected|
    if d ≤ snapWin then some (i, d) else none)
  (cands.foldl
    (fun best c =>
      match best with
      | none => some c
      | some b => if c.2 < b.2 then some c else some b)
    none).map (fun b => (raw.getD b.1 0, b.1))

/-- Greedy chain from a start position, as the claim states it: the
expected position repeatedly advances by dy and the nearest unused later
raw tick within the snap window is accepted, else the chain stops. -/
def specChainFrom (raw : List ℚ) (dy snapWin : ℚ) :
    ℕ → ℚ → ℕ → List ℚ → List ℚ
  | 0, _, _, acc => acc.reverse
  | fuel + 1, expected, cursor, acc =>
    let e := expected + dy
    match specAccept raw e snapWin cursor with
    | none => acc.reverse
    | some hit =>
      specChainFrom raw dy snapWin fuel e (hit.2 + 1) (hit.1 :: acc)

/-- Chain of one start candidate. -/
def specChainAt (raw : List ℚ) (dy snapWin : ℚ) (s : ℕ) : List ℚ :=
  specChainFrom raw dy snapWin (raw.length + 1) (raw.getD s 0) (s + 1)
    [raw.getD s 0]

/-- Start candidates as the claim states them: up to 8 raw ticks lying in
the top 20 percent of the raw-tick y-range. -/
def specCandidates (raw : List ℚ) : List ℕ :=
  let yMin := raw.getD 0 0
  let yMax := raw.getD (raw.length - 1) 0
  let topCut := yMin + (yMax - yMin) * (2/10)
  ((List.range raw.length).filter (fun i => raw.getD i 0 ≤ topCut)).take 8

/-- The longest chain over the start candidates (the earliest chain wins
ties). -/
def specBestChain (raw : List ℚ) (dy snapWin : ℚ) : List ℚ :=
  (specCandidates raw).foldl
    (fun best s =>
      let v := specChainAt raw dy snapWin s
      if best.length < v.length then v else best)
    []

/-- Tick validation as the claim describes it: fail on fewer than 2 raw
ticks, on a median spacing outside [10, 90], or on a longest chain shorter
than 6; succeed with exactly that chain and that median. -/
def specValidate (raw : List ℚ) : Option (List ℚ × ℚ) :=
  if raw.length < 2 then none
  else
    match computeMedianDy raw with
    | none => none
    | some d =>
      if d < 10 ∨ 90 < d then none
      else
        let sw := clampQ (jsRound (d * (1/10))) 4 18
        let best := specBestChain raw d sw
        if best.length < 6 then none else some (best, d)

/-! ## Small inputs for witnesses -/

/-- All-white 2x2 buffer. -/
def preWhite : Pre := ⟨2, 2, fun _ => 255⟩

/-- All-purple 2x2 buffer (the reference purple 213, 43, 255). -/
def prePurple : Pre :=
  ⟨2, 2, fun p => if p % 4 = 0 then 213 else if p % 4 = 1 then 43 else 255⟩

/-- All-black 2x2 buffer. -/
def preBlack : Pre := ⟨2, 2, fun _ => 0⟩

/-- Degenerate one-cell slot band covering a 2x2 buffer. -/
def slotTiny : SlotBand := ⟨0, 2, 0, 2⟩

/-- Degenerate one-column region covering a 2x2 buffer. -/
def regionTiny : Region := ⟨0, 2⟩

/-- Pure white background at base tolerance. -/
def bgWhiteTiny : BgColor := ⟨255, 255, 255, 34⟩

/-- All-white 30x60 buffer, large enough for a Friday calibration with four
slot bands. -/
def preCal : Pre := ⟨30, 60, fun _ => 255⟩

/-- Day regions splitting the 30-wide calibration buffer. -/
def regionsCal : DayRegions :=
  ⟨⟨0, 26⟩, ⟨0, 26⟩, ⟨0, 26⟩, ⟨0, 26⟩, ⟨0, 26⟩⟩

/-- Four slot bands for the calibration witness. -/
def slotsCal : List SlotBand :=
  [⟨2, 14, 0, 14⟩, ⟨16, 28, 14, 28⟩, ⟨30, 42, 28, 42⟩, ⟨44, 56, 42, 56⟩]

/-- Friday calibration candidate cells: the bottom 8 slot bands inset into
the Friday column, each carrying its prefix-sum whiteness, exactly as
ranked in calibrateFridayBackground. -/
def fridayCands (pre : Pre) (dayRegions : DayRegions)
    (slotBands : List SlotBand) : List CalCell :=
  let w : ℤ := pre.w
  let h : ℤ := pre.h
  let fx0 := dayRegions.friday.x0
  let fx1 := dayRegions.friday.x1
  (slotBands.drop (slotBands.length - 8)).map (fun s =>
    let x0 := clampZ (fx0 + 8) 0 (w - 1)
    let x1 := clampZ (fx1 - 8) (x0 + 1) w
    let y0 := clampZ (s.yStart + 2) 0 (h - 1)
    let y1 := clampZ (s.yEnd - 2) (y0 + 1) h
    CalCell.mk x0 x1 y0 y1 (rectWhiteFrac pre x0 y0 x1 y1))

/-- The top-3 Friday candidate cells by whiteness. -/
def fridayChosen (pre : Pre) (dayRegions : DayRegions)
    (slotBands : List SlotBand) : List CalCell :=
  (sortByWhiteDesc (fridayCands pre dayRegions slotBands)).take 3

/-- Mean whiteness of the chosen Friday cells. -/
def fridayMeanWhite (pre : Pre) (dayRegions : DayRegions)
    (slotBands : List SlotBand) : ℚ :=
  ((fridayChosen pre dayRegions slotBands).map (·.whiteFrac)).sum /
    ((fridayChosen pre dayRegions slotBands).length : ℚ)

/-- Friday spread: the maximal per-channel MAD over the 60-per-cell random
samples of the chosen cells. -/
def fridaySpread (pre : Pre) (dayRegions : DayRegions)
    (slotBands : List SlotBand) (rng : ℕ → ℚ) (k : ℕ) : ℤ :=
  let samples := calSamples pre rng true (fridayChosen pre dayRegions slotBands) k
  let rs := samples.map (·.1)
  let gs := samples.map (·.2.1)
  let bs := samples.map (·.2.2)
  max (chanMad rs (chanMedian rs))
    (max (chanMad gs (chanMedian gs)) (chanMad bs (chanMedian bs)))

/-- Global calibration candidate cells pooled over every (day, slot) pair,
exactly as ranked in calibrateGlobalBackground. -/
def globalCands (pre : Pre) (dayRegions : DayRegions)
    (slotBands : List SlotBand) : List CalCell :=
  let w : ℤ := pre.w
  let h : ℤ := pre.h
  dayRegions.values.flatMap (fun day =>
    slotBands.map (fun s =>
      let y0 := clampZ (s.yStart + 2) 0 (h - 1)
      let y1 := clampZ (s.yEnd - 2) (y0 + 1) h
      let rx0 := clampZ (day.x0 + 8) 0 (w - 1)
      let rx1 := clampZ (day.x1 - 8) (rx0 + 1) w
      CalCell.mk rx0 rx1 y0 y1 (rectWhiteFrac pre rx0 y0 rx1 y1)))

/-- The top-3 global candidate cells by whiteness. -/
def globalChosen (pre : Pre) (dayRegions : DayRegions)
    (slotBands : List SlotBand) : List CalCell :=
  (sortByWhiteDesc (globalCands pre dayRegions slotBands)).take 3

/-- Mean whiteness of the chosen global cells. -/
def globalMeanWhite (pre : Pre) (dayRegions : DayRegions)
    (slotBands : List SlotBand) : ℚ :=
  ((globalChosen pre dayRegions slotBands).map (·.whiteFrac)).sum /
    ((globalChosen pre dayRegions slotBands).length : ℚ)

/-! ## Fidelity lemmas -/

/-- Correctness of the cleared-denominator darkness test: it is exactly the
rational comparison luma at most 215. -/
theorem lumaDark_iff (r g b : ℕ) : lumaDark r g b = true ↔ luma r g b ≤ 215 := by
  simp only [lumaDark, luma, decide_eq_true_eq]
  rw [div_le_iff₀ (by norm_num : (0 : ℚ) < 10000)]
  norm_num
  exact_mod_cast Iff.rfl

/-! ## Claim C5: determinism of the pipeline -/

/-- The NavSnapshot builder overwrites the tick-lane global before any stage
reads it, so its result does not depend on the incoming state. -/
theorem computeFrozenNav_ignores_state (s1 s2 : Option LanePx) (pre : Pre)
    (rng : ℕ → ℚ) (k : ℕ) :
    computeFrozenNavFromPre s1 pre rng k = computeFrozenNavFromPre s2 pre rng k := by
  unfold computeFrozenNavFromPre
  rfl

/-- State independence lifts to the full pipeline. -/
theorem runFullPipeline_ignores_state (s1 s2 : Option LanePx) (pre : Pre)
    (rng : ℕ → ℚ) (k : ℕ) :
    runFullPipeline s1 pre rng k = runFullPipeline s2 pre rng k := by
  unfold runFullPipeline
  rw [computeFrozenNav_ignores_state s1 s2]

/-- Claim C5: running the full pipeline (NavSnapshot construction and
availability classification) on the identical pixel buffer with the same
random stream yields identical results regardless of the incoming
window.__TICK_LANE__ global state; running it twice in sequence (the second
run seeing the state the first run published) reproduces the first result;
and the Global Ladder Extender is a pure function of its inputs. -/
theorem claim_C5 :
    (∀ s1 s2 : Option LanePx, ∀ pre rng k,
      runFullPipeline s1 pre rng k = runFullPipeline s2 pre rng k) ∧
    (∀ s1 : Option LanePx, ∀ pre rng k,
      (runFullPipeline ((runFullPipeline s1 pre rng k).2.1) pre rng k).1 =
        (runFullPipeline s1 pre rng k).1) ∧
    (∀ pre vTicks dy xs regs lane,
      buildGlobalTickLadder pre vTicks dy xs regs lane =
        buildGlobalTickLadder pre vTicks dy xs regs lane) :=
  ⟨fun s1 s2 pre rng k => runFullPipeline_ignores_state s1 s2 pre rng k,
   fun s1 pre rng k => by
     rw [runFullPipeline_ignores_state ((runFullPipeline s1 pre rng k).2.1) s1],
   fun _ _ _ _ _ _ => rfl⟩

/-! ## Claim C6: failure propagation (corrected) -/

/-- Counterexample to claim C6: on the image preBadDy the tick validator
fails with the typed reason "bad median dy", but the external caller of the
NavSnapshot build receives the unrelated fixed reason "Nav builder returned
null/undefined" - the first failing stage's reason is not propagated. -/
theorem claim_C6_counterexample :
    (validateTicksFromFirst
        ((detectTimeTicksFromLeftLane preBadDy (pickBestTickLane preBadDy)).map
          (fun t => (t : ℚ)))).reason = "bad median dy" ∧
    (buildAndPublishNav none preBadDy rngZero 0).1 =
      ⟨false, "Nav builder returned null/undefined", none⟩ ∧
    "bad median dy" ≠ "Nav builder returned null/undefined" := by
  refine ⟨by decide!, by decide!, by decide⟩

/-- Claim C6 as amended: stages return typed failures with reasons (or, for
raw tick detection, a bare empty list), but computeFrozenNavFromPre
collapses every stage failure to none and buildAndPublishNav reports the
fixed generic reason "Nav builder returned null/undefined" to the external
caller; the first failing stage's reason is not propagated. -/
theorem claim_C6 (s0 : Option LanePx) (pre : Pre) (rng : ℕ → ℚ) (k : ℕ)
    (h : (computeFrozenNavFromPre s0 pre rng k).1 = none) :
    (buildAndPublishNav s0 pre rng k).1 =
      ⟨false, "Nav builder returned null/undefined", none⟩ := by
  unfold buildAndPublishNav
  rcases hr : computeFrozenNavFromPre s0 pre rng k with ⟨nav, s1, k1⟩
  rw [hr] at h
  simp only at h
  subst h
  rfl

/-- Witness for claim C6 at the concrete image preBadDy. -/
theorem claim_C6_witness :
    (buildAndPublishNav none preBadDy rngZero 0).1 =
      ⟨false, "Nav builder returned null/undefined", none⟩ :=
  claim_C6 none preBadDy rngZero 0 (by decide!)

/-! ## Claims C7 and C8: counterexamples -/

/-- Counterexample to claim C7: the raw tick list fracRawTicks validates
successfully with the fractional median spacing dy = 23/2 and snap window 4;
feeding the validated ticks and that dy to the Global Ladder Extender (as
computeFrozenNavFromPre does) on the image preLadderEdge yields the
successfully built tick sequence [7, 14], whose consecutive gap 7 differs
from dy by 9/2, outside the active snap tolerance 4: the flooring of the
scan window lets a horizontal-peak accept land below dy minus the snap
window. -/
theorem claim_C7_counterexample :
    (validateTicksFromFirst fracRawTicks).ok = true ∧
    (validateTicksFromFirst fracRawTicks).dy = some (23/2) ∧
    (validateTicksFromFirst fracRawTicks).ticks = [7, 18, 30, 41, 53, 64] ∧
    (buildGlobalTickLadder preLadderEdge (validateTicksFromFirst fracRawTicks).ticks
        (23/2) [] none none).ok = true ∧
    (buildGlobalTickLadder preLadderEdge (validateTicksFromFirst fracRawTicks).ticks
        (23/2) [] none none).ticks = [7, 14] ∧
    (buildGlobalTickLadder preLadderEdge (validateTicksFromFirst fracRawTicks).ticks
        (23/2) [] none none).snapWin = 4 ∧
    ¬(|(14 : ℚ) - 7 - 23/2| ≤ 4) := by
  decide!

/-- Counterexample to claim C8: searching 40px around the expected position
30 on the image preDivLine accepts x = 37 at the source's scan step 1 but
x = 38 at the spec-described step 2, so the divider detector does not
perform the claimed step-2 search. -/
theorem claim_C8_counterexample :
    (findBestDividerNearX preDivLine 4 30 1).map (fun b => b.1.x) = some 37 ∧
    (findBestDividerNearX preDivLine 4 30 2).map (fun b => b.1.x) = some 38 ∧
    (37 : ℤ) ≠ 38 := by
  decide!

/-! ## Claim C2: the work marker -/

/-- Claim C2: the work marker.  measurePurpleFrac is exactly the fraction of
160 sampled pixels lying within per-channel tolerance 55 of the reference
purple (213, 43, 255); a cell whose fraction reaches 0.18 is recorded
work = true AND available = true, the busy/free sampling step is skipped
for it (only the 320 purple draws are consumed), and this holds at every
cell position of the per-day slot loop. -/
theorem claim_C2 :
    (∀ pre slot region rng k,
      measurePurpleFrac pre slot region rng k =
        specPurpleFrac pre slot region rng k) ∧
    (∀ pre region bg rng slot rest k,
      (18/100 : ℚ) ≤ measurePurpleFrac pre slot region rng k →
      processSlotsDay pre region bg rng (slot :: rest) k =
        (true :: (processSlotsDay pre region bg rng rest (k + 320)).1,
         true :: (processSlotsDay pre region bg rng rest (k + 320)).2.1,
         (processSlotsDay pre region bg rng rest (k + 320)).2.2)) ∧
    (∀ pre region bg rng slots k i, i < slots.length →
      (18/100 : ℚ) ≤ measurePurpleFrac pre (slots.getD i ⟨0, 0, 0, 0⟩) region rng
        (cellOffset pre region rng slots k i) →
      (processSlotsDay pre region bg rng slots k).1.getD i false = true ∧
      (processSlotsDay pre region bg rng slots k).2.1.getD i false = true) := by
  refine ⟨?_, ?_, ?_⟩
  · intro pre slot region rng k
    simp only [measurePurpleFrac, specPurpleFrac, workSamplePixels, List.countP_map]
    rfl
  · intro pre region bg rng slot rest k h
    simp only [processSlotsDay, if_pos h]
  · intro pre region bg rng slots
    induction slots with
    | nil => intro k i hi; exact absurd hi (by simp)
    | cons slot rest ih =>
      intro k i hi hp
      match i with
      | 0 =>
        simp only [cellOffset, List.getD_cons_zero] at hp
        simp only [processSlotsDay, if_pos hp, List.getD_cons_zero]
        exact ⟨trivial, trivial⟩
      | i + 1 =>
        simp only [List.getD_cons_succ] at hp
        simp only [List.length_cons, Nat.add_lt_add_iff_right] at hi
        by_cases hw : (18/100 : ℚ) ≤ measurePurpleFrac pre slot region rng k
        · simp only [cellOffset, if_pos hw] at hp
          have := ih (k + 320) i hi hp
          simp only [processSlotsDay, if_pos hw, List.getD_cons_succ]
          exact this
        · simp only [cellOffset, if_neg hw] at hp
          have := ih (k + 320 + 280) i hi hp
          simp only [processSlotsDay, if_neg hw, List.getD_cons_succ]
          exact this

/-- Witness for claim C2 on an all-purple cell: the cell is recorded
available and work, and the next cell would read the stream at offset 320. -/
theorem claim_C2_witness :
    processSlotsDay prePurple regionTiny bgWhiteTiny rngZero [slotTiny] 0 =
      (true :: (processSlotsDay prePurple regionTiny bgWhiteTiny rngZero [] 320).1,
       true :: (processSlotsDay prePurple regionTiny bgWhiteTiny rngZero [] 320).2.1,
       (processSlotsDay prePurple regionTiny bgWhiteTiny rngZero [] 320).2.2) :=
  claim_C2.2.1 prePurple regionTiny bgWhiteTiny rngZero slotTiny [] 0 (by decide!)

/-! ## Claim C1: the hybrid busy/free rule -/

/-- Claim C1: the hybrid busy/free rule.  For a classifiable cell the
classifier succeeds, and it reports free exactly when the occupied fraction
of its 140 samples (non-near-white AND not purple AND not background-match)
is below 0.50 and either the background fraction reaches 0.82, or it
reaches 0.55 with the ink (non-near-white) fraction at most 0.12; and in
the per-day loop a cell whose purple fraction is below the work threshold
is classified by exactly this rule (consuming 320 purple draws then 280
classifier draws). -/
theorem claim_C1 :
    (∀ pre slot region bg rng k,
      region.x0 < region.x1 → slot.yStart < slot.yEnd →
      (classifySlotSample pre slot region bg rng k).ok = true ∧
      ((classifySlotSample pre slot region bg rng k).free = true ↔
        (specOccupiedFrac pre slot region bg rng k < 1/2 ∧
         ((82/100 : ℚ) ≤ specBgFrac pre slot region bg rng k ∨
          ((55/100 : ℚ) ≤ specBgFrac pre slot region bg rng k ∧
           specInkFrac pre slot region rng k ≤ 12/100))))) ∧
    (∀ pre region bg rng slot rest k,
      measurePurpleFrac pre slot region rng k < 18/100 →
      processSlotsDay pre region bg rng (slot :: rest) k =
        (((classifySlotSample pre slot region bg rng (k + 320)).ok &&
          (classifySlotSample pre slot region bg rng (k + 320)).free) ::
            (processSlotsDay pre region bg rng rest (k + 320 + 280)).1,
         false :: (processSlotsDay pre region bg rng rest (k + 320 + 280)).2.1,
         (processSlotsDay pre region bg rng rest (k + 320 + 280)).2.2)) := by
  constructor
  · intro pre slot region bg rng k hx hy
    have hx2 : ¬(region.x1 ≤ region.x0) := not_le.mpr hx
    have hy2 : ¬(slot.yEnd ≤ slot.yStart) := not_le.mpr hy
    rw [classifySlotSample, if_neg hx2, if_neg hy2]
    simp only [specOccupiedFrac, specBgFrac, specInkFrac, cellSamplePixels]
    by_cases hocc :
      (1/2 : ℚ) ≤
        ((((List.range 140).map (fun i =>
            samplePixel pre rng k i (sampleRect pre slot region 8 2).1
              (sampleRect pre slot region 8 2).2.1
              (sampleRect pre slot region 8 2).2.2.1
              (sampleRect pre slot region 8 2).2.2.2)).countP (fun p =>
          !isNearWhite p.1 p.2.1 p.2.2 && !isPurpleMatch p.1 p.2.1 p.2.2 &&
            !isBgMatch p.1 p.2.1 p.2.2 bg) : ℚ) / 140)
    · rw [if_pos hocc]
      refine ⟨rfl, ?_⟩
      simp only [Bool.false_eq_true, false_iff]
      intro hcon
      exact absurd hocc (not_le.mpr hcon.1)
    · rw [if_neg hocc]
      refine ⟨rfl, ?_⟩
      rw [decide_eq_true_eq]
      push_neg at hocc
      constructor
      · intro hfree
        exact ⟨hocc, hfree⟩
      · intro hcon
        exact hcon.2
  · intro pre region bg rng slot rest k h
    simp only [processSlotsDay, if_neg (not_le.mpr h)]

/-- Witness for claim C1 at an all-white cell with a white calibrated
background. -/
theorem claim_C1_witness :
    (classifySlotSample preWhite slotTiny regionTiny bgWhiteTiny rngZero 0).ok = true ∧
    ((classifySlotSample preWhite slotTiny regionTiny bgWhiteTiny rngZero 0).free = true ↔
      (specOccupiedFrac preWhite slotTiny regionTiny bgWhiteTiny rngZero 0 < 1/2 ∧
       ((82/100 : ℚ) ≤ specBgFrac preWhite slotTiny regionTiny bgWhiteTiny rngZero 0 ∨
        ((55/100 : ℚ) ≤ specBgFrac preWhite slotTiny regionTiny bgWhiteTiny rngZero 0 ∧
         specInkFrac preWhite slotTiny regionTiny rngZero 0 ≤ 12/100)))) :=
  claim_C1.1 preWhite slotTiny regionTiny bgWhiteTiny rngZero 0 (by decide) (by decide)

/-! ## Claim C9: ladder termination and the stopping rule -/

/-- Each call of the extension loop yields at most one accepted tick per
unit of fuel beyond the seeds already in the state. -/
theorem ladderGo_length_le (pre : Pre) (dy snapWin : ℚ) (dividerXs : List ℤ)
    (dayRegions : Option DayRegions) (tickLane : Option LanePx) :
    ∀ (fuel : ℕ) (st : LadderState),
      (ladderGo pre dy snapWin dividerXs dayRegions tickLane fuel st).1.length ≤
        st.out.length + fuel := by
  intro fuel
  induction fuel with
  | zero => intro st; simp [ladderGo]
  | succ fuel ih =>
    intro st
    simp only [ladderGo]
    split
    · simp
    · split
      · exact le_trans (ih _) (by simp; omega)
      · split
        · split
          · simp
          · exact le_trans (ih _) (by simp; omega)
        · split
          · split
            · simp
            · exact le_trans (ih _) (by simp; omega)
          · split
            · exact le_trans (ih _) (by simp)
            · simp only [List.length_reverse]
              split
              · split
                · simp
                · omega
              · omega

/-- Claim C9: ladder termination with a guaranteed stopping rule.  The
built ladder holds at most 121 ticks (the seed plus at most one tick per
each of the 120 capped steps); a step whose expected position reaches
image bottom minus 2 stops at once with the bottom reason; a step where the
horizontal peak, the vertical-structure cue and the stable-run retries all
fail appends at most one terminal-recovery tick, taken from the tick lane
within the widened window clamp(round(0.7 dy), 10, 28), and stops
unconditionally; and in general every step either recurses on one unit
less fuel having accepted at most one tick, or returns at once having
added at most one tick. -/
theorem claim_C9 :
    (∀ (pre : Pre) (vTicks : List ℚ) (dy : ℚ) (dividerXs : List ℤ)
        (dayRegions : Option DayRegions) (tickLane : Option LanePx),
      ¬ vTicks.length < 2 →
      (buildGlobalTickLadder pre vTicks dy dividerXs dayRegions
        tickLane).ticks.length ≤ 121) ∧
    (∀ (pre : Pre) (dy snapWin : ℚ) (dividerXs : List ℤ)
        (dayRegions : Option DayRegions) (tickLane : Option LanePx)
        (fuel : ℕ) (st : LadderState),
      (pre.h : ℚ) - 2 ≤ st.prev + dy →
      ladderGo pre dy snapWin dividerXs dayRegions tickLane (fuel + 1) st =
        (st.out.reverse, "hit image bottom")) ∧
    (∀ (pre : Pre) (dy snapWin : ℚ) (dividerXs : List ℤ)
        (dayRegions : Option DayRegions) (tickLane : Option LanePx)
        (fuel : ℕ) (st : LadderState),
      ¬ ((pre.h : ℚ) - 2 ≤ st.prev + dy) →
      findBestHLinePeak pre (st.prev + dy) snapWin = none →
      hasVerticalDayStructureAtY pre (st.prev + dy) dividerXs 3 = false →
      ¬ (5 ≤ st.consecutiveVGood) →
      ladderGo pre dy snapWin dividerXs dayRegions tickLane (fuel + 1) st =
        ((match findBestLaneMarkNearY pre (st.prev + dy) tickLane
            (clampQ (jsRound (dy * (7/10)) : ℚ) 10 28) with
          | some lb =>
            if |(lb.1 : ℚ) - (st.prev + dy)| ≤
                clampQ (jsRound (dy * (7/10)) : ℚ) 10 28 then
              (jsRound (lb.1 : ℚ) : ℚ) :: st.out
            else st.out
          | none => st.out).reverse, "no strong line peak")) ∧
    (∀ (pre : Pre) (dy snapWin : ℚ) (dividerXs : List ℤ)
        (dayRegions : Option DayRegions) (tickLane : Option LanePx)
        (fuel : ℕ) (st : LadderState),
      (∃ st2 : LadderState,
        ladderGo pre dy snapWin dividerXs dayRegions tickLane (fuel + 1) st =
          ladderGo pre dy snapWin dividerXs dayRegions tickLane fuel st2 ∧
        st2.out.length ≤ st.out.length + 1) ∨
      (ladderGo pre dy snapWin dividerXs dayRegions tickLane
          (fuel + 1) st).1.length ≤ st.out.length + 1) := by
  refine ⟨?_, ?_, ?_, ?_⟩
  · intro pre vTicks dy dividerXs dayRegions tickLane h2
    rw [buildGlobalTickLadder, if_neg h2]
    exact le_trans
      (ladderGo_length_le pre dy (clampQ (jsRound (dy * (12/100)) : ℚ) 4 18)
        dividerXs dayRegions tickLane 120 ⟨[vTicks.getD 0 0], vTicks.getD 0 0, 0, 0⟩)
      (by simp)
  · intro pre dy snapWin dividerXs dayRegions tickLane fuel st h
    simp only [ladderGo]
    rw [if_pos h]
  · intro pre dy snapWin dividerXs dayRegions tickLane fuel st h1 h2 h3 h4
    simp only [ladderGo]
    rw [if_neg h1, h2]
    simp only [h3, Bool.false_eq_true, if_false]
    rw [if_neg (fun hc => h4 hc.1), if_neg (fun hc => h4 hc.1)]
  · intro pre dy snapWin dividerXs dayRegions tickLane fuel st
    simp only [ladderGo]
    split
    · right; simp
    · split
      · exact Or.inl ⟨_, rfl, by simp⟩
      · split
        · split
          · right; simp
          · exact Or.inl ⟨_, rfl, by simp⟩
        · split
          · split
            · right; simp
            · exact Or.inl ⟨_, rfl, by simp⟩
          · split
            · exact Or.inl ⟨_, rfl, by simp⟩
            · right
              simp only [List.length_reverse]
              split
              · split
                · simp
                · omega
              · omega

/-- Witness for claim C9 on the all-white 2x2 buffer: the ladder from 2
seed ticks stays within the cap, the bottom rule fires for an expected
position past the bottom, the terminal rule fires for an expected position
above the image, and the one-step case analysis is inhabited. -/
theorem claim_C9_witness :
    (buildGlobalTickLadder preWhite [0, 10] 10 [] none none).ticks.length ≤ 121 ∧
    ladderGo preWhite 10 4 [] none none 1 ⟨[0], 0, 0, 0⟩ =
      (([0] : List ℚ).reverse, "hit image bottom") ∧
    ladderGo preWhite (-1) 4 [] none none 1 ⟨[0], 0, 0, 0⟩ =
      ((match findBestLaneMarkNearY preWhite ((0 : ℚ) + -1) none
          (clampQ (jsRound ((-1 : ℚ) * (7/10)) : ℚ) 10 28) with
        | some lb =>
          if |(lb.1 : ℚ) - ((0 : ℚ) + -1)| ≤
              clampQ (jsRound ((-1 : ℚ) * (7/10)) : ℚ) 10 28 then
            (jsRound (lb.1 : ℚ) : ℚ) :: ([0] : List ℚ)
          else ([0] : List ℚ)
        | none => ([0] : List ℚ)).reverse, "no strong line peak") ∧
    ((∃ st2 : LadderState,
        ladderGo preWhite 10 4 [] none none 1 ⟨[0], 0, 0, 0⟩ =
          ladderGo preWhite 10 4 [] none none 0 st2 ∧
        st2.out.length ≤ ([0] : List ℚ).length + 1) ∨
      (ladderGo preWhite 10 4 [] none none 1 ⟨[0], 0, 0, 0⟩).1.length ≤
        ([0] : List ℚ).length + 1) :=
  ⟨claim_C9.1 preWhite [0, 10] 10 [] none none (by decide),
   claim_C9.2.1 preWhite 10 4 [] none none 0 ⟨[0], 0, 0, 0⟩ (by decide!),
   claim_C9.2.2.1 preWhite (-1) 4 [] none none 0 ⟨[0], 0, 0, 0⟩
     (by decide!) (by decide!) (by decide!) (by decide),
   claim_C9.2.2.2 preWhite 10 4 [] none none 0 ⟨[0], 0, 0, 0⟩⟩

/-! ## Claim C10: work slots are excluded from free ranges -/

/-- Dropping k entries from range' shifts its start by k. -/
theorem drop_range'_eq : ∀ (k s n : ℕ),
    (List.range' s n).drop k = List.range' (s + k) (n - k) := by
  intro k
  induction k with
  | zero => intro s n; simp
  | succ k ih =>
    intro s n
    cases n with
    | zero => simp [List.range']
    | succ n =>
      show (List.range' (s + 1) n).drop k = _
      rw [ih (s + 1) n]
      congr 1 <;> omega

/-- Dropping i0 entries from range i1 leaves the index window [i0, i1). -/
theorem drop_range_eq (i0 i1 : ℕ) :
    (List.range i1).drop i0 = List.range' i0 (i1 - i0) := by
  rw [List.range_eq_range', drop_range'_eq, Nat.zero_add]

/-- One step of the merged-range builder, as a rewriting equation. -/
theorem rangesLoop_cons (mask : List Bool) (anchor step cS cE : ℤ) (i : ℕ)
    (rest : List ℕ) (ranges : List (ℤ × ℤ)) (runStart : Option ℕ) :
    rangesLoop mask anchor step cS cE (i :: rest) (ranges, runStart) =
      if mask.getD i false then
        rangesLoop mask anchor step cS cE rest (ranges, some (runStart.getD i))
      else
        match runStart with
        | none => rangesLoop mask anchor step cS cE rest (ranges, none)
        | some r =>
          rangesLoop mask anchor step cS cE rest
            ((if max cS (anchor + (r : ℤ) * step) <
                min cE (anchor + (i : ℤ) * step) then
              ranges ++ [(max cS (anchor + (r : ℤ) * step),
                min cE (anchor + (i : ℤ) * step))]
            else ranges), none) := rfl

/-- A ceiling-of-thirtieths index at most j bounds the dividend by 30 j. -/
theorem ceil_div30_toNat_le {c a : ℤ} {j : ℕ}
    (h : (jsCeil (((c : ℚ) - (a : ℚ)) / ((30 : ℤ) : ℚ))).toNat ≤ j) :
    c - a ≤ (j : ℤ) * 30 := by
  have hz : jsCeil (((c : ℚ) - (a : ℚ)) / ((30 : ℤ) : ℚ)) ≤ (j : ℤ) :=
    le_trans (Int.self_le_toNat _) (by exact_mod_cast h)
  have hq2 : ((c : ℚ) - (a : ℚ)) / ((30 : ℤ) : ℚ) ≤ ((j : ℤ) : ℚ) :=
    le_trans (Int.le_ceil _) (by exact_mod_cast hz)
  have h30 : (0 : ℚ) < ((30 : ℤ) : ℚ) := by norm_num
  rw [div_le_iff₀ h30] at hq2
  have : (c : ℚ) - (a : ℚ) ≤ ((j : ℤ) : ℚ) * ((30 : ℤ) : ℚ) := hq2
  exact_mod_cast this

/-- Loop invariant of the merged-range builder: provided slot j is masked
off, every emitted range avoids the half-open 30-minute slot j, and any
open run began after j or the cursor has not yet passed j. -/
theorem rangesLoop_avoid (mask : List Bool) (anchor cS cE : ℤ) (j : ℕ)
    (hj : mask.getD j false = false) :
    ∀ (n a : ℕ) (ranges : List (ℤ × ℤ)) (runStart : Option ℕ),
      (∀ r ∈ ranges,
        r.2 ≤ anchor + (j : ℤ) * 30 ∨ anchor + ((j : ℤ) + 1) * 30 ≤ r.1) →
      (∀ s, runStart = some s → (j < s ∨ a ≤ j)) →
      (∀ r ∈ (rangesLoop mask anchor 30 cS cE (List.range' a n)
          (ranges, runStart)).1,
        r.2 ≤ anchor + (j : ℤ) * 30 ∨ anchor + ((j : ℤ) + 1) * 30 ≤ r.1) ∧
      (∀ s, (rangesLoop mask anchor 30 cS cE (List.range' a n)
          (ranges, runStart)).2 = some s → (j < s ∨ a + n ≤ j)) := by
  intro n
  induction n with
  | zero =>
    intro a ranges runStart hr hs
    refine ⟨fun r hrm => hr r hrm, fun s hsome => ?_⟩
    rcases hs s hsome with h | h
    · exact Or.inl h
    · exact Or.inr (by omega)
  | succ n ih =>
    intro a ranges runStart hr hs
    have haj : mask.getD a false = true → a ≠ j := by
      intro hma haj; rw [haj, hj] at hma; cases hma
    show (∀ r ∈ (rangesLoop mask anchor 30 cS cE (a :: List.range' (a + 1) n)
        (ranges, runStart)).1,
        r.2 ≤ anchor + (j : ℤ) * 30 ∨ anchor + ((j : ℤ) + 1) * 30 ≤ r.1) ∧
      (∀ s, (rangesLoop mask anchor 30 cS cE (a :: List.range' (a + 1) n)
        (ranges, runStart)).2 = some s → (j < s ∨ a + (n + 1) ≤ j))
    rw [rangesLoop_cons]
    by_cases hma : mask.getD a false = true
    · rw [if_pos hma]
      have hs2 : ∀ s, (some (runStart.getD a) : Option ℕ) = some s →
          (j < s ∨ a + 1 ≤ j) := by
        intro s hsome
        have he : s = runStart.getD a := (Option.some.inj hsome).symm
        subst he
        rcases runStart with _ | s0
        · simp only [Option.getD_none]
          have := haj hma
          omega
        · simp only [Option.getD_some]
          rcases hs s0 rfl with h | h
          · exact Or.inl h
          · have := haj hma
            omega
      have step := ih (a + 1) ranges (some (runStart.getD a)) hr hs2
      refine ⟨step.1, fun s hsome => ?_⟩
      rcases step.2 s hsome with h | h
      · exact Or.inl h
      · exact Or.inr (by omega)
    · rw [if_neg hma]
      rcases runStart with _ | r0
      · have step := ih (a + 1) ranges none hr
          (fun s h => Option.noConfusion h)
        refine ⟨step.1, fun s hsome => ?_⟩
        rcases step.2 s hsome with h | h
        · exact Or.inl h
        · exact Or.inr (by omega)
      · have hr0 := hs r0 rfl
        have hnew : ∀ r ∈ (if max cS (anchor + (r0 : ℤ) * 30) <
            min cE (anchor + (a : ℤ) * 30) then
              ranges ++ [(max cS (anchor + (r0 : ℤ) * 30),
                min cE (anchor + (a : ℤ) * 30))] else ranges),
            r.2 ≤ anchor + (j : ℤ) * 30 ∨ anchor + ((j : ℤ) + 1) * 30 ≤ r.1 := by
          split
          · intro r hrm
            rcases List.mem_append.mp hrm with h | h
            · exact hr r h
            · rcases List.mem_singleton.mp h with rfl
              rcases hr0 with hcase | hcase
              · refine Or.inr (le_trans ?_ (le_max_right _ _))
                have hjr : ((j : ℤ) + 1) ≤ (r0 : ℤ) := by exact_mod_cast hcase
                nlinarith
              · refine Or.inl (le_trans (min_le_right _ _) ?_)
                have haj2 : (a : ℤ) ≤ (j : ℤ) := by exact_mod_cast hcase
                nlinarith
          · exact hr
        have step := ih (a + 1) _ none hnew (fun s h => Option.noConfusion h)
        refine ⟨step.1, fun s hsome => ?_⟩
        rcases step.2 s hsome with h | h
        · exact Or.inl h
        · exact Or.inr (by omega)

/-- The full range builder avoids slot j whenever the mask is off at j and
the trailing close bound cE clears slot j when the walk ends at or before
it. -/
theorem buildRangesFromMask_avoid (mask : List Bool) (i0 i1 : ℕ)
    (anchor cS cE : ℤ) (j : ℕ)
    (hj : mask.getD j false = false)
    (hend : i1 ≤ j → cE ≤ anchor + (j : ℤ) * 30) :
    ∀ r ∈ buildRangesFromMask mask i0 i1 anchor 30 cS cE,
      r.2 ≤ anchor + (j : ℤ) * 30 ∨ anchor + ((j : ℤ) + 1) * 30 ≤ r.1 := by
  have main := rangesLoop_avoid mask anchor cS cE j hj (i1 - i0) i0 []
    none (fun r h => absurd h (List.not_mem_nil r))
    (fun s h => Option.noConfusion h)
  intro r hrm
  unfold buildRangesFromMask at hrm
  rw [drop_range_eq] at hrm
  rcases hloop : rangesLoop mask anchor 30 cS cE (List.range' i0 (i1 - i0))
      ([], none) with ⟨ranges, runStart⟩
  rw [hloop] at main hrm
  simp only at main hrm
  rcases runStart with _ | s
  · exact main.1 r hrm
  · simp only at hrm
    rcases main.2 s rfl with hcase | hcase
    · by_cases hlt : max cS (anchor + (s : ℤ) * 30) < cE
      · rw [if_pos hlt] at hrm
        rcases List.mem_append.mp hrm with h | h
        · exact main.1 r h
        · rcases List.mem_singleton.mp h with rfl
          refine Or.inr (le_trans ?_ (le_max_right _ _))
          have hjs : ((j : ℤ) + 1) ≤ (s : ℤ) := by exact_mod_cast hcase
          nlinarith
      · rw [if_neg hlt] at hrm
        exact main.1 r hrm
    · have hi1 : i1 ≤ j := by omega
      by_cases hlt : max cS (anchor + (s : ℤ) * 30) < cE
      · rw [if_pos hlt] at hrm
        rcases List.mem_append.mp hrm with h | h
        · exact main.1 r h
        · rcases List.mem_singleton.mp h with rfl
          exact Or.inl (hend hi1)
      · rw [if_neg hlt] at hrm
        exact main.1 r hrm

/-- Claim C10: in the saved-schedule query, whenever the work array has the
same length as the day array, a slot recorded work = true is never
contained in any returned free range: every free range ends at or before
that slot starts, or starts at or after it ends.  (The free mask is the
conjunction of availability with the negation of the work flag.) -/
theorem claim_C10 (startMin endMin anchorMin : ℤ) (dayArr workArr : List Bool)
    (free work : List (ℤ × ℤ)) (j : ℕ)
    (hlen : workArr.length = dayArr.length)
    (hj : j < dayArr.length)
    (hw : workArr.getD j false = true)
    (hq : queryRecordRanges startMin endMin anchorMin dayArr workArr =
      some (free, work)) :
    ∀ r ∈ free,
      r.2 ≤ anchorMin + (j : ℤ) * 30 ∨ anchorMin + ((j : ℤ) + 1) * 30 ≤ r.1 := by
  simp only [queryRecordRanges] at hq
  split at hq
  · cases hq
  · simp only [Option.some.injEq, Prod.mk.injEq] at hq
    obtain ⟨hfree, _⟩ := hq
    subst hfree
    have hmask : ((List.range dayArr.length).map
        (fun i => dayArr.getD i false && !(workArr.getD i false))).getD j false =
        false := by
      rw [List.getD_eq_getElem?_getD, List.getElem?_map, List.getElem?_range hj]
      simp only [List.getD_eq_getElem?_getD] at hw
      simp [hw]
    refine buildRangesFromMask_avoid _ _ _ _ _ _ _ hmask ?_
    intro hi1
    rcases min_le_iff.mp hi1 with hcase | hcase
    · omega
    · have hd := ceil_div30_toNat_le hcase
      omega

/-- Witness for claim C10: a three-slot Monday record with the middle slot
marked work; both returned free ranges avoid the work slot 510-540. -/
theorem claim_C10_witness :
    (510 : ℤ) ≤ 480 + ((1 : ℕ) : ℤ) * 30 ∨
      480 + (((1 : ℕ) : ℤ) + 1) * 30 ≤ (480 : ℤ) :=
  claim_C10 480 600 480 [true, true, true] [false, true, false]
    [(480, 510), (540, 600)] [(510, 540)] 1 (by decide) (by decide) (by decide)
    (by decide!) (480, 510) (by decide)

/-! ## Claim C4: the background calibration cascade -/

/-- Membership through one stable insertion. -/
theorem mem_stableInsert {α : Type} (le : α → α → Bool) (a x : α) :
    ∀ l : List α, x ∈ stableInsert le a l → x = a ∨ x ∈ l := by
  intro l
  induction l with
  | nil =>
    intro h
    rcases List.mem_singleton.mp h with rfl
    exact Or.inl rfl
  | cons b t ih =>
    intro h
    simp only [stableInsert] at h
    split at h
    · rcases List.mem_cons.mp h with h | h
      · exact Or.inr (by simp [h])
      · rcases ih h with h | h
        · exact Or.inl h
        · exact Or.inr (List.mem_cons_of_mem _ h)
    · rcases List.mem_cons.mp h with h | h
      · exact Or.inl h
      · exact Or.inr h

/-- Membership through the stable-sort fold. -/
theorem mem_jsSortBy_aux {α : Type} (le : α → α → Bool) :
    ∀ (l acc : List α) (x : α),
      x ∈ l.foldl (fun acc a => stableInsert le a acc) acc →
      x ∈ acc ∨ x ∈ l := by
  intro l
  induction l with
  | nil => intro acc x h; exact Or.inl h
  | cons a t ih =>
    intro acc x h
    rcases ih (stableInsert le a acc) x h with h | h
    · rcases mem_stableInsert le a x acc h with h | h
      · exact Or.inr (by simp [h])
      · exact Or.inl h
    · exact Or.inr (List.mem_cons_of_mem _ h)

/-- The stable sort permutes: every output element came from the input. -/
theorem mem_jsSortBy {α : Type} (le : α → α → Bool) (l : List α) (x : α)
    (h : x ∈ jsSortBy le l) : x ∈ l := by
  rcases mem_jsSortBy_aux le l [] x h with h | h
  · exact absurd h (List.not_mem_nil x)
  · exact h

/-- A fold of zero contributions keeps its accumulator. -/
theorem foldl_add_zero (f : ℕ → ℕ) (hf : ∀ j, f j = 0) :
    ∀ (l : List ℕ) (acc : ℕ), l.foldl (fun a j => a + f j) acc = acc := by
  intro l
  induction l with
  | nil => intro acc; rfl
  | cons a t ih => intro acc; show List.foldl _ (acc + f a) t = acc;
                   rw [hf a, Nat.add_zero, ih]

/-- A row count of an everywhere-false mask is zero. -/
theorem rowCount_false (m : ℕ → ℕ → Bool) (hm : ∀ x y, m x y = false)
    (y x0 n : ℕ) : rowCount m y x0 n = 0 := by
  unfold rowCount
  rw [List.countP_eq_zero]
  intro i _
  simp [hm]

/-- The rectangle count of an everywhere-false mask is zero. -/
theorem rectSum_false (m : ℕ → ℕ → Bool) (hm : ∀ x y, m x y = false)
    (x0 y0 x1 y1 : ℤ) : rectSum m x0 y0 x1 y1 = 0 := by
  unfold rectSum
  exact foldl_add_zero _ (fun j => rowCount_false m hm _ _ _) _ 0

/-- Every rectangle of the all-black buffer has white fraction zero. -/
theorem rectWhiteFrac_preBlack (x0 y0 x1 y1 : ℤ) :
    rectWhiteFrac preBlack x0 y0 x1 y1 = 0 := by
  simp only [rectWhiteFrac]
  split
  · rfl
  · rw [rectSum_false (whiteMask preBlack) (fun x y => rfl)]
    simp

/-- Mean whiteness of cells that are all fully non-white is below 0.70. -/
theorem meanWhite_zero_lt (cells : List CalCell)
    (hc : ∀ c ∈ cells, c.whiteFrac = 0) :
    ((cells.map (·.whiteFrac)).sum / (cells.length : ℚ)) < 70/100 := by
  have hsum : (cells.map (·.whiteFrac)).sum = 0 :=
    List.sum_eq_zero (fun x hx => by
      rcases List.mem_map.mp hx with ⟨c, hcm, rfl⟩
      exact hc c hcm)
  rw [hsum, zero_div]
  norm_num

/-- On the all-black buffer the Friday calibration fails. -/
theorem preBlack_friday_none (regions : DayRegions) (slots : List SlotBand)
    (rng : ℕ → ℚ) (k : ℕ) :
    (calibrateFridayBackground preBlack regions slots rng k).1 = none := by
  simp only [calibrateFridayBackground]
  split
  · rfl
  · split
    · rfl
    · rename_i hmean
      exfalso
      apply hmean
      apply meanWhite_zero_lt
      intro c hc
      have h1 := List.mem_of_mem_take hc
      have h2 := mem_jsSortBy _ _ _ h1
      rcases List.mem_map.mp h2 with ⟨s, _, rfl⟩
      exact rectWhiteFrac_preBlack _ _ _ _

/-- On the all-black buffer the global calibration fails. -/
theorem preBlack_global_none (regions : DayRegions) (slots : List SlotBand)
    (rng : ℕ → ℚ) (k : ℕ) :
    (calibrateGlobalBackground preBlack regions slots rng k).1 = none := by
  simp only [calibrateGlobalBackground]
  split
  · rfl
  · rename_i hmean
    exfalso
    apply hmean
    apply meanWhite_zero_lt
    intro c hc
    have h1 := List.mem_of_mem_take hc
    have h2 := mem_jsSortBy _ _ _ h1
    rcases List.mem_flatMap.mp h2 with ⟨day, _, hmem⟩
    rcases List.mem_map.mp hmem with ⟨s, _, rfl⟩
    exact rectWhiteFrac_preBlack _ _ _ _

/-- On the all-black buffer the whole calibration cascade fails. -/
theorem preBlack_cascade_none (regions : DayRegions) (slots : List SlotBand)
    (rng : ℕ → ℚ) (k : ℕ) :
    (calibrationCascade preBlack regions slots rng k).1 = none := by
  simp only [calibrationCascade]
  rw [preBlack_friday_none regions slots rng k]
  exact preBlack_global_none regions slots rng _

/-- When the calibration cascade fails everywhere, the calibration stage
yields no nav. -/
theorem navStageCal_none (pre : Pre) (rng : ℕ → ℚ)
    (h : ∀ regions slots k1,
      (calibrationCascade pre regions slots rng k1).1 = none)
    (k : ℕ) (tickLane : LanePx) (regions : DayRegions) (fxs : List ℤ)
    (gticks : List ℚ) (slotBands : List SlotBand) :
    (navStageCal pre rng k tickLane regions fxs gticks slotBands).1 = none := by
  simp only [navStageCal]
  split
  all_goals first
    | rfl
    | (rename_i heq
       rw [h _ _ _] at heq
       exact Option.noConfusion heq)

/-- When the calibration cascade fails everywhere, the slot-band stage
yields no nav. -/
theorem navStageSlots_none (pre : Pre) (rng : ℕ → ℚ)
    (h : ∀ regions slots k1,
      (calibrationCascade pre regions slots rng k1).1 = none)
    (k : ℕ) (lane : LaneFrac) (tickLane : LanePx) (regions : DayRegions)
    (fxs : List ℤ) (gticks : List ℚ) :
    (navStageSlots pre rng k lane tickLane regions fxs gticks).1 = none := by
  simp only [navStageSlots]
  split
  · rfl
  · exact navStageCal_none pre rng h k tickLane regions fxs gticks _

/-- When the calibration cascade fails everywhere, the freeze-and-ladder
stage yields no nav. -/
theorem navStageFreeze_none (pre : Pre) (rng : ℕ → ℚ)
    (h : ∀ regions slots k1,
      (calibrationCascade pre regions slots rng k1).1 = none)
    (k : ℕ) (lane : LaneFrac) (tickLane : LanePx) (vticks : List ℚ) (dy : ℚ)
    (fr : FreezeResult) :
    (navStageFreeze pre rng k lane tickLane vticks dy fr).1 = none := by
  simp only [navStageFreeze]
  repeat' split
  all_goals first
    | rfl
    | exact navStageSlots_none pre rng h k lane tickLane _ _ _

/-- When the calibration cascade fails everywhere, the divider stage yields
no nav. -/
theorem navStageDividers_none (pre : Pre) (rng : ℕ → ℚ)
    (h : ∀ regions slots k1,
      (calibrationCascade pre regions slots rng k1).1 = none)
    (k : ℕ) (lane : LaneFrac) (tickLane : LanePx) (vticks : List ℚ) (dy : ℚ)
    (divRes : DividersResult) :
    (navStageDividers pre rng k lane tickLane vticks dy divRes).1 = none := by
  simp only [navStageDividers]
  split
  · rfl
  · exact navStageFreeze_none pre rng h k lane tickLane vticks dy _

/-- When the calibration cascade fails everywhere, the validation stage
yields no nav. -/
theorem navStageValidate_none (pre : Pre) (rng : ℕ → ℚ)
    (h : ∀ regions slots k1,
      (calibrationCascade pre regions slots rng k1).1 = none)
    (k : ℕ) (lane : LaneFrac) (tickLane : LanePx) (v : VTicksResult) :
    (navStageValidate pre rng k lane tickLane v).1 = none := by
  simp only [navStageValidate]
  repeat' split
  all_goals first
    | rfl
    | exact navStageDividers_none pre rng h k lane tickLane _ _ _

set_option maxHeartbeats 1000000 in
/-- Claim C4: the background calibration cascade.  Either strategy returns
a background only when the mean whiteness of its chosen top-3 cells
reaches 0.70; a successful Friday calibration freezes tolerance
clamp(round(34 + maxMAD * 2.5), 34, 60) and a successful global fallback
the fixed clamp(34 + 10, 34, 60) = 44, so every frozen tolerance lies in
[34, 60]; the cascade fails exactly when Friday fails and then the global
fallback fails; and when the cascade fails at every stage input, the
NavSnapshot build produces no nav. -/
theorem claim_C4 :
    (∀ (pre : Pre) (regions : DayRegions) (slots : List SlotBand)
        (rng : ℕ → ℚ) (k : ℕ),
      fridayMeanWhite pre regions slots < 70/100 →
      (calibrateFridayBackground pre regions slots rng k).1 = none) ∧
    (∀ (pre : Pre) (regions : DayRegions) (slots : List SlotBand)
        (rng : ℕ → ℚ) (k : ℕ),
      globalMeanWhite pre regions slots < 70/100 →
      (calibrateGlobalBackground pre regions slots rng k).1 = none) ∧
    (∀ (pre : Pre) (regions : DayRegions) (slots : List SlotBand)
        (rng : ℕ → ℚ) (k : ℕ) (bg : BgColor),
      (calibrateFridayBackground pre regions slots rng k).1 = some bg →
      (70/100 : ℚ) ≤ fridayMeanWhite pre regions slots ∧
      bg.tol = clampQ (jsRound ((34 : ℚ) +
        (fridaySpread pre regions slots rng k : ℚ) * (5/2)) : ℚ) 34 60 ∧
      (34 : ℚ) ≤ bg.tol ∧ bg.tol ≤ 60) ∧
    (∀ (pre : Pre) (regions : DayRegions) (slots : List SlotBand)
        (rng : ℕ → ℚ) (k : ℕ) (bg : BgColor),
      (calibrateGlobalBackground pre regions slots rng k).1 = some bg →
      (70/100 : ℚ) ≤ globalMeanWhite pre regions slots ∧
      bg.tol = 44 ∧ (34 : ℚ) ≤ bg.tol ∧ bg.tol ≤ 60) ∧
    (∀ (pre : Pre) (regions : DayRegions) (slots : List SlotBand)
        (rng : ℕ → ℚ) (k : ℕ),
      (calibrationCascade pre regions slots rng k).1 = none ↔
        ((calibrateFridayBackground pre regions slots rng k).1 = none ∧
         (calibrateGlobalBackground pre regions slots rng
           (calibrateFridayBackground pre regions slots rng k).2).1 = none)) ∧
    (∀ (s0 : Option LanePx) (pre : Pre) (rng : ℕ → ℚ) (k : ℕ),
      (∀ regions slots k1,
        (calibrationCascade pre regions slots rng k1).1 = none) →
      (computeFrozenNavFromPre s0 pre rng k).1 = none) := by
  refine ⟨?_, ?_, ?_, ?_, ?_, ?_⟩
  · intro pre regions slots rng k h
    simp only [calibrateFridayBackground]
    split
    · rfl
    · split
      · rfl
      · rename_i hcond
        exact absurd h hcond
  · intro pre regions slots rng k h
    simp only [calibrateGlobalBackground]
    split
    · rfl
    · rename_i hcond
      exact absurd h hcond
  · intro pre regions slots rng k bg hsucc
    simp only [calibrateFridayBackground] at hsucc
    split at hsucc
    · simp at hsucc
    · split at hsucc
      · simp at hsucc
      · rename_i hmean
        split at hsucc
        · simp at hsucc
        · simp only [Option.some.injEq] at hsucc
          obtain rfl := hsucc.symm
          refine ⟨not_lt.mp hmean, rfl, le_max_left _ _,
            max_le (by norm_num) (min_le_left _ _)⟩
  · intro pre regions slots rng k bg hsucc
    simp only [calibrateGlobalBackground] at hsucc
    split at hsucc
    · simp at hsucc
    · rename_i hmean
      simp only [Option.some.injEq] at hsucc
      obtain rfl := hsucc.symm
      refine ⟨not_lt.mp hmean,
        show clampQ (jsRound ((34 : ℚ) + 10) : ℚ) 34 60 = 44 from by decide!,
        le_max_left _ _, max_le (by norm_num) (min_le_left _ _)⟩
  · intro pre regions slots rng k
    simp only [calibrationCascade]
    rcases hcal : (calibrateFridayBackground pre regions slots rng k).1 with _ | bg
    · simp
    · simp
  · intro s0 pre rng k h
    simp only [computeFrozenNavFromPre]
    split
    · rfl
    · exact navStageValidate_none pre rng h k _ _ _

/-- Witness for claim C4 at the all-black and all-white buffers: both
strategies fail on black (mean whiteness 0, below 0.70) and the cascade
then yields no nav; both succeed on white with tolerances 34 and 44. -/
theorem claim_C4_witness :
    (calibrateFridayBackground preBlack regionsCal slotsCal rngZero 0).1 = none ∧
    (calibrateGlobalBackground preBlack regionsCal slotsCal rngZero 0).1 = none ∧
    ((70/100 : ℚ) ≤ fridayMeanWhite preCal regionsCal slotsCal ∧
      (BgColor.mk 255 255 255 34).tol = clampQ (jsRound ((34 : ℚ) +
        (fridaySpread preCal regionsCal slotsCal rngZero 0 : ℚ) * (5/2)) : ℚ) 34 60 ∧
      (34 : ℚ) ≤ (BgColor.mk 255 255 255 34).tol ∧
      (BgColor.mk 255 255 255 34).tol ≤ 60) ∧
    ((70/100 : ℚ) ≤ globalMeanWhite preCal regionsCal slotsCal ∧
      (BgColor.mk 255 255 255 44).tol = 44 ∧
      (34 : ℚ) ≤ (BgColor.mk 255 255 255 44).tol ∧
      (BgColor.mk 255 255 255 44).tol ≤ 60) ∧
    ((calibrationCascade preBlack regionsCal slotsCal rngZero 0).1 = none ↔
      ((calibrateFridayBackground preBlack regionsCal slotsCal rngZero 0).1 = none ∧
       (calibrateGlobalBackground preBlack regionsCal slotsCal rngZero
         (calibrateFridayBackground preBlack regionsCal slotsCal rngZero 0).2).1 =
           none)) ∧
    (computeFrozenNavFromPre none preBlack rngZero 0).1 = none :=
  ⟨claim_C4.1 preBlack regionsCal slotsCal rngZero 0 (by decide!),
   claim_C4.2.1 preBlack regionsCal slotsCal rngZero 0 (by decide!),
   claim_C4.2.2.1 preCal regionsCal slotsCal rngZero 0 ⟨255, 255, 255, 34⟩
     (by decide!),
   claim_C4.2.2.2.1 preCal regionsCal slotsCal rngZero 0 ⟨255, 255, 255, 44⟩
     (by decide!),
   claim_C4.2.2.2.2.1 preBlack regionsCal slotsCal rngZero 0,
   claim_C4.2.2.2.2.2 none preBlack rngZero 0
     (fun regions slots k1 => preBlack_cascade_none regions slots rngZero k1)⟩

/-! ## Claim C3: tick validation against its specification -/

/-- A fold whose step skips every listed index leaves its accumulator. -/
theorem foldl_if_skip {α : Type} (k : ℕ) (g : α → ℕ → α) :
    ∀ (l : List ℕ) (b : α), (∀ i ∈ l, i < k) →
      l.foldl (fun b i => if i < k then b else g b i) b = b := by
  intro l
  induction l with
  | nil => intro b _; rfl
  | cons a t ih =>
    intro b hl
    show t.foldl _ (if a < k then b else g b a) = b
    rw [if_pos (hl a (List.mem_cons_self a t))]
    exact ih b (fun i hi => hl i (List.mem_cons_of_mem a hi))

/-- Folding over a filterMap is folding with the extraction inlined. -/
theorem foldl_filterMap_eq {α β γ : Type} (f : α → Option β) (g : γ → β → γ) :
    ∀ (l : List α) (b : γ),
      (l.filterMap f).foldl g b =
        l.foldl (fun b a => match f a with | none => b | some c => g b c) b := by
  intro l
  induction l with
  | nil => intro b; rfl
  | cons a t ih =>
    intro b
    rw [List.filterMap_cons]
    cases hf : f a with
    | none =>
      simp only []
      rw [ih, List.foldl_cons, hf]
    | some c =>
      simp only []
      rw [List.foldl_cons, ih, List.foldl_cons, hf]

/-- Coupled run of the source nearest-tick scan and the claim-side
minimum-of-candidates fold: over any index list past the cursor, the two
folds agree, given agreeing starting states. -/
theorem nearestCouple (raw : List ℚ) (e sw : ℚ) (k : ℕ) :
    ∀ (l : List ℕ) (b₁ : Option TickHit) (b₂ : Option (ℕ × ℚ)),
      (∀ i ∈ l, ¬ i < k) →
      ((b₁ = none ∧ b₂ = none) ∨
        (∃ i0, b₁ = some ⟨raw.getD i0 0, i0, |raw.getD i0 0 - e|⟩ ∧
          b₂ = some (i0, |raw.getD i0 0 - e|))) →
      (l.foldl (fun b i =>
          match (if |raw.getD i 0 - e| ≤ sw
              then some (i, |raw.getD i 0 - e|) else none) with
          | none => b
          | some c =>
            match b with
            | none => some c
            | some b0 => if c.2 < b0.2 then some c else some b0) b₂).map
        (fun b => (raw.getD b.1 0, b.1)) =
      (l.foldl (fun best i =>
          if i < k then best
          else
            if (decide (|raw.getD i 0 - e| ≤ sw) &&
                best.all (fun b => decide (|raw.getD i 0 - e| < b.dist))) = true
            then some ⟨raw.getD i 0, i, |raw.getD i 0 - e|⟩ else best) b₁).map
        (fun h => (h.y, h.idx)) := by
  intro l
  induction l with
  | nil =>
    intro b₁ b₂ _ hInv
    rcases hInv with ⟨rfl, rfl⟩ | ⟨i0, rfl, rfl⟩
    · rfl
    · rfl
  | cons a t ih =>
    intro b₁ b₂ hge hInv
    have ha : ¬ a < k := hge a (List.mem_cons_self a t)
    have hge' : ∀ i ∈ t, ¬ i < k :=
      fun i hi => hge i (List.mem_cons_of_mem a hi)
    rw [List.foldl_cons, List.foldl_cons]
    by_cases hd : |raw.getD a 0 - e| ≤ sw
    · rcases hInv with ⟨rfl, rfl⟩ | ⟨i0, rfl, rfl⟩
      · refine ih _ _ hge' (Or.inr ⟨a, ?_, ?_⟩)
        · have hcond : (decide (|raw.getD a 0 - e| ≤ sw) &&
              Option.all (fun b => decide (|raw.getD a 0 - e| < b.dist))
                (none : Option TickHit)) = true := by
            simp only [Option.all_none, Bool.and_true, decide_eq_true_eq]
            exact hd
          rw [if_neg ha, if_pos hcond]
        · rw [if_pos hd]
      · by_cases hlt : |raw.getD a 0 - e| < |raw.getD i0 0 - e|
        · refine ih _ _ hge' (Or.inr ⟨a, ?_, ?_⟩)
          · have hcond : (decide (|raw.getD a 0 - e| ≤ sw) &&
                Option.all (fun b => decide (|raw.getD a 0 - e| < b.dist))
                  (some (⟨raw.getD i0 0, i0, |raw.getD i0 0 - e|⟩ :
                    TickHit))) = true := by
              simp only [Option.all_some, Bool.and_eq_true, decide_eq_true_eq]
              exact ⟨hd, hlt⟩
            rw [if_neg ha, if_pos hcond]
          · rw [if_pos hd]
            show (if |raw.getD a 0 - e| < |raw.getD i0 0 - e|
                then some (a, |raw.getD a 0 - e|)
                else some (i0, |raw.getD i0 0 - e|)) =
              some (a, |raw.getD a 0 - e|)
            rw [if_pos hlt]
        · refine ih _ _ hge' (Or.inr ⟨i0, ?_, ?_⟩)
          · have hcond : ¬ ((decide (|raw.getD a 0 - e| ≤ sw) &&
                Option.all (fun b => decide (|raw.getD a 0 - e| < b.dist))
                  (some (⟨raw.getD i0 0, i0, |raw.getD i0 0 - e|⟩ :
                    TickHit))) = true) := by
              simp only [Option.all_some, Bool.and_eq_true, decide_eq_true_eq]
              exact fun hc => hlt hc.2
            rw [if_neg ha, if_neg hcond]
          · rw [if_pos hd]
            show (if |raw.getD a 0 - e| < |raw.getD i0 0 - e|
                then some (a, |raw.getD a 0 - e|)
                else some (i0, |raw.getD i0 0 - e|)) =
              some (i0, |raw.getD i0 0 - e|)
            rw [if_neg hlt]
    · rcases hInv with ⟨rfl, rfl⟩ | ⟨i0, rfl, rfl⟩
      · refine ih _ _ hge' (Or.inl ⟨?_, ?_⟩)
        · have hcond : ¬ ((decide (|raw.getD a 0 - e| ≤ sw) &&
              Option.all (fun b => decide (|raw.getD a 0 - e| < b.dist))
                (none : Option TickHit)) = true) := by
            simp only [Option.all_none, Bool.and_true, decide_eq_true_eq]
            exact hd
          rw [if_neg ha, if_neg hcond]
        · rw [if_neg hd]
      · refine ih _ _ hge' (Or.inr ⟨i0, ?_, ?_⟩)
        · have hcond : ¬ ((decide (|raw.getD a 0 - e| ≤ sw) &&
              Option.all (fun b => decide (|raw.getD a 0 - e| < b.dist))
                (some (⟨raw.getD i0 0, i0, |raw.getD i0 0 - e|⟩ :
                  TickHit))) = true) := by
            simp only [Option.all_some, Bool.and_eq_true, decide_eq_true_eq]
            exact fun hc => hd hc.1
          rw [if_neg ha, if_neg hcond]
        · rw [if_neg hd]

/-- The claim-side accept (nearest unused later raw tick within the snap
window, earliest on ties) is exactly the source's nearestTickWithin. -/
theorem specAccept_eq (raw : List ℚ) (e sw : ℚ) (k : ℕ) :
    specAccept raw e sw k =
      (nearestTickWithin raw e sw k).map (fun h => (h.y, h.idx)) := by
  simp only [specAccept, nearestTickWithin]
  rw [foldl_filterMap_eq]
  have htake : ∀ i ∈ (List.range raw.length).take k, i < k := by
    intro i hi
    rw [List.take_range k raw.length] at hi
    have := List.mem_range.mp hi
    omega
  have hge : ∀ i ∈ (List.range raw.length).drop k, ¬ i < k := by
    rw [drop_range_eq]
    intro i hi
    have h1 : k ≤ i := by
      have := List.mem_range'_1.mp hi
      omega
    omega
  conv_rhs =>
    rw [show List.range raw.length =
        (List.range raw.length).take k ++ (List.range raw.length).drop k from
      (List.take_append_drop k _).symm]
    rw [List.foldl_append]
  rw [foldl_if_skip k _ _ _ htake]
  have hres := nearestCouple raw e sw k ((List.range raw.length).drop k)
    none none hge (Or.inl ⟨rfl, rfl⟩)
  convert hres using 2
  congr 1
  funext b a
  by_cases hd : |raw.getD a 0 - e| ≤ sw
  · rw [if_pos hd]
  · rw [if_neg hd]

/-- The claim-side greedy chain loop equals the source's chain walk. -/
theorem specChainFrom_eq (raw : List ℚ) (dy sw : ℚ) :
    ∀ (fuel : ℕ) (e : ℚ) (c : ℕ) (acc : List ℚ),
      specChainFrom raw dy sw fuel e c acc = chainWalk raw dy sw fuel e c acc := by
  intro fuel
  induction fuel with
  | zero => intro e c acc; rfl
  | succ fuel ih =>
    intro e c acc
    show (match specAccept raw (e + dy) sw c with
          | none => acc.reverse
          | some hit =>
            specChainFrom raw dy sw fuel (e + dy) (hit.2 + 1) (hit.1 :: acc)) =
         (match nearestTickWithin raw (e + dy) sw c with
          | none => acc.reverse
          | some hit =>
            chainWalk raw dy sw fuel (e + dy) (hit.idx + 1) (hit.y :: acc))
    rw [specAccept_eq]
    cases nearestTickWithin raw (e + dy) sw c with
    | none => rfl
    | some h => exact ih (e + dy) (h.idx + 1) (h.y :: acc)

/-- The claim-side chain of one start equals the source's. -/
theorem specChainAt_eq (raw : List ℚ) (dy sw : ℚ) (s : ℕ) :
    specChainAt raw dy sw s = validateFromIndex raw dy sw s :=
  specChainFrom_eq raw dy sw (raw.length + 1) (raw.getD s 0) (s + 1)
    [raw.getD s 0]

/-- Over a window where the predicate is downward closed, filtering a range
block is taking its initial segment. -/
theorem filter_eq_takeWhile_range' (p : ℕ → Bool) :
    ∀ (n s : ℕ), (∀ i j, s ≤ i → i ≤ j → j < s + n → p j = true → p i = true) →
      (List.range' s n).filter p = (List.range' s n).takeWhile p := by
  intro n
  induction n with
  | zero => intro s _; rfl
  | succ n ih =>
    intro s hmono
    show (s :: List.range' (s + 1) n).filter p =
      (s :: List.range' (s + 1) n).takeWhile p
    cases hp : p s with
    | true =>
      rw [List.filter_cons_of_pos hp, List.takeWhile_cons_of_pos hp]
      rw [ih (s + 1) (fun i j hi hij hj hpj =>
        hmono i j (by omega) hij (by omega) hpj)]
    | false =>
      have hps : ¬ (p s = true) := by rw [hp]; exact Bool.false_ne_true
      rw [List.filter_cons_of_neg hps, List.takeWhile_cons_of_neg hps]
      rw [List.filter_eq_nil_iff]
      intro j hj hpj
      have hjr := List.mem_range'_1.mp hj
      exact hps (hmono s j (le_refl s) (by omega) (by omega) hpj)

/-- In a nondecreasing tick list, earlier entries are no larger. -/
theorem sorted_getD_mono (raw : List ℚ) (hs : raw.Chain' (· ≤ ·)) (i j : ℕ)
    (hij : i ≤ j) (hj : j < raw.length) : raw.getD i 0 ≤ raw.getD j 0 := by
  have hp : raw.Pairwise (· ≤ ·) := List.chain'_iff_pairwise.mp hs
  rcases eq_or_lt_of_le hij with rfl | hlt
  · exact le_refl _
  · have hi : i < raw.length := lt_trans hlt hj
    rw [List.getD_eq_getElem?_getD, List.getD_eq_getElem?_getD,
      List.getElem?_eq_getElem hi, List.getElem?_eq_getElem hj]
    exact List.pairwise_iff_getElem.mp hp i j hi hj hlt

/-- On a nonempty nondecreasing raw list, the claim-side start candidates
equal the source's (the takeWhile scan loses nothing and the forced-zero
fallback never fires, the first tick being at or below the top cut). -/
theorem specCandidates_eq (raw : List ℚ) (hs : raw.Chain' (· ≤ ·))
    (hn : 1 ≤ raw.length) :
    specCandidates raw =
      chainCandidates raw
        (raw.getD 0 0 + (raw.getD (raw.length - 1) 0 - raw.getD 0 0) * (2/10))
        8 := by
  have hp0 : (decide (raw.getD 0 0 ≤
      raw.getD 0 0 + (raw.getD (raw.length - 1) 0 - raw.getD 0 0) * (2/10))) =
      true := by
    rw [decide_eq_true_eq]
    have h1 : raw.getD 0 0 ≤ raw.getD (raw.length - 1) 0 :=
      sorted_getD_mono raw hs 0 (raw.length - 1) (by omega) (by omega)
    nlinarith
  have hmono : ∀ i j : ℕ, 0 ≤ i → i ≤ j → j < 0 + raw.length →
      (decide (raw.getD j 0 ≤
        raw.getD 0 0 + (raw.getD (raw.length - 1) 0 - raw.getD 0 0) * (2/10))) =
        true →
      (decide (raw.getD i 0 ≤
        raw.getD 0 0 + (raw.getD (raw.length - 1) 0 - raw.getD 0 0) * (2/10))) =
        true := by
    intro i j _ hij hj hpj
    rw [decide_eq_true_eq] at hpj ⊢
    exact le_trans (sorted_getD_mono raw hs i j hij (by omega)) hpj
  have hcons : List.range' 0 raw.length =
      0 :: List.range' 1 (raw.length - 1) := by
    rcases Nat.exists_eq_add_of_le hn with ⟨m, hm⟩
    rw [show raw.length = m + 1 by omega]
    rfl
  simp only [specCandidates, chainCandidates, List.range_eq_range']
  rw [filter_eq_takeWhile_range' _ raw.length 0 hmono]
  have hne : ¬ (((List.range' 0 raw.length).takeWhile
      (fun i => decide (raw.getD i 0 ≤
        raw.getD 0 0 +
          (raw.getD (raw.length - 1) 0 - raw.getD 0 0) * (2/10)))).take 8 =
      []) := by
    rw [hcons, @List.takeWhile_cons_of_pos ℕ
      (fun i => decide (raw.getD i 0 ≤
        raw.getD 0 0 + (raw.getD (raw.length - 1) 0 - raw.getD 0 0) * (2/10)))
      0 (List.range' 1 (raw.length - 1)) hp0]
    simp
  rw [if_neg hne]

/-- Claim C3: tick validation.  For a nondecreasing raw tick list,
validation succeeds exactly when the claim-side validator (fewer than 2
ticks fail; median spacing outside [10, 90] fails; longest greedy chain
over up to 8 top-20-percent start candidates shorter than 6 fails)
produces a value, in which case the returned ticks and dy are exactly that
longest chain and that median; and the claim-side validator succeeds
exactly under the stated three conditions. -/
theorem claim_C3 (raw : List ℚ) (hs : raw.Chain' (· ≤ ·)) :
    ((validateTicksFromFirst raw).ok = true ↔ (specValidate raw).isSome = true) ∧
    (∀ ticks d, specValidate raw = some (ticks, d) →
      (validateTicksFromFirst raw).ticks = ticks ∧
      (validateTicksFromFirst raw).dy = some d ∧
      computeMedianDy raw = some d) ∧
    ((specValidate raw).isSome = true ↔
      (¬ raw.length < 2 ∧ ∃ d, computeMedianDy raw = some d ∧
        ¬(d < 10 ∨ 90 < d) ∧
        6 ≤ (specBestChain raw d
          (clampQ (jsRound (d * (1/10)) : ℚ) 4 18)).length)) := by
  have hbest : ∀ d : ℚ, ¬ raw.length < 2 →
      specBestChain raw d (clampQ (jsRound (d * (1/10)) : ℚ) 4 18) =
        bestChain raw d (clampQ (jsRound (d * (1/10)) : ℚ) 4 18)
          (chainCandidates raw
            (raw.getD 0 0 +
              (raw.getD (raw.length - 1) 0 - raw.getD 0 0) * (2/10)) 8) := by
    intro d h2
    unfold specBestChain bestChain
    rw [← specCandidates_eq raw hs (by omega)]
    have hstep : (fun (best : List ℚ) s =>
        let v := specChainAt raw d (clampQ (jsRound (d * (1/10)) : ℚ) 4 18) s
        if best.length < v.length then v else best) =
      (fun (best : List ℚ) s =>
        let v := validateFromIndex raw d (clampQ (jsRound (d * (1/10)) : ℚ)
          4 18) s
        if best.length < v.length then v else best) := by
      funext best s
      rw [specChainAt_eq]
    rw [hstep]
  by_cases h2 : raw.length < 2
  · refine ⟨?_, ?_, ?_⟩
    · rw [validateTicksFromFirst, if_pos h2, specValidate, if_pos h2]
      simp
    · intro ticks d hspec
      rw [specValidate, if_pos h2] at hspec
      exact Option.noConfusion hspec
    · rw [specValidate, if_pos h2]
      simp [h2]
  · rcases hmed : computeMedianDy raw with _ | d
    · refine ⟨?_, ?_, ?_⟩
      · rw [validateTicksFromFirst, if_neg h2, hmed, specValidate, if_neg h2,
          hmed]
        simp
      · intro ticks d hspec
        rw [specValidate, if_neg h2, hmed] at hspec
        exact Option.noConfusion hspec
      · rw [specValidate, if_neg h2, hmed]
        simp only [Option.isSome_none, Bool.false_eq_true, false_iff]
        intro hcon
        rcases hcon.2 with ⟨d, hd, _⟩
        exact Option.noConfusion hd
    · by_cases hdy : d < 10 ∨ 90 < d
      · refine ⟨?_, ?_, ?_⟩
        · rw [validateTicksFromFirst, if_neg h2, hmed, specValidate,
            if_neg h2, hmed]
          simp only []
          rw [if_pos hdy, if_pos hdy]
          simp
        · intro ticks d0 hspec
          rw [specValidate, if_neg h2, hmed] at hspec
          simp only [] at hspec
          rw [if_pos hdy] at hspec
          exact Option.noConfusion hspec
        · rw [specValidate, if_neg h2, hmed]
          simp only []
          rw [if_pos hdy]
          simp only [Option.isSome_none, Bool.false_eq_true, false_iff]
          intro hcon
          rcases hcon.2 with ⟨d0, hd0, hd0r, _⟩
          obtain rfl := (Option.some.inj hd0).symm
          exact hd0r hdy
      · have hb := hbest d h2
        refine ⟨?_, ?_, ?_⟩
        · rw [validateTicksFromFirst, if_neg h2, hmed, specValidate,
            if_neg h2, hmed]
          simp only []
          rw [if_neg hdy, if_neg hdy]
          rw [hb]
          by_cases hlen : 6 ≤ (bestChain raw d
              (clampQ (jsRound (d * (1/10)) : ℚ) 4 18)
              (chainCandidates raw
                (raw.getD 0 0 +
                  (raw.getD (raw.length - 1) 0 - raw.getD 0 0) * (2/10))
                8)).length
          · rw [if_pos hlen, if_neg (by omega)]
            simp
          · rw [if_neg hlen, if_pos (by omega)]
            simp
        · intro ticks d0 hspec
          rw [specValidate, if_neg h2, hmed] at hspec
          simp only [] at hspec
          rw [if_neg hdy] at hspec
          rw [hb] at hspec
          split at hspec
          · exact Option.noConfusion hspec
          · rename_i hlen
            simp only [Option.some.injEq, Prod.mk.injEq] at hspec
            obtain ⟨hticks, hd0⟩ := hspec
            subst hticks
            subst hd0
            rw [validateTicksFromFirst, if_neg h2, hmed]
            simp only []
            rw [if_neg hdy, if_pos (by omega)]
            exact ⟨rfl, rfl, trivial⟩
        · rw [specValidate, if_neg h2, hmed]
          simp only []
          rw [if_neg hdy]
          by_cases hlen : (specBestChain raw d
              (clampQ (jsRound (d * (1/10)) : ℚ) 4 18)).length < 6
          · rw [if_pos hlen]
            simp only [Option.isSome_none, Bool.false_eq_true, false_iff]
            intro hcon
            rcases hcon.2 with ⟨d0, hd0, _, hlen0⟩
            obtain rfl := (Option.some.inj hd0).symm
            omega
          · rw [if_neg hlen]
            simp only [Option.isSome_some, true_iff]
            exact ⟨h2, d, rfl, hdy, by omega⟩

/-- Witness for claim C3 on the evenly spaced raw list [0, 10, ..., 50]:
validation succeeds with exactly these six ticks and median spacing 10. -/
theorem claim_C3_witness :
    (validateTicksFromFirst [0, 10, 20, 30, 40, 50]).ok = true ∧
    (validateTicksFromFirst [0, 10, 20, 30, 40, 50]).ticks =
      [0, 10, 20, 30, 40, 50] ∧
    (validateTicksFromFirst [0, 10, 20, 30, 40, 50]).dy = some 10 :=
  ⟨(claim_C3 [0, 10, 20, 30, 40, 50]
      (by simp only [List.chain'_cons, List.chain'_singleton]; norm_num)).1.mpr
     (by decide!),
   ((claim_C3 [0, 10, 20, 30, 40, 50]
      (by simp only [List.chain'_cons, List.chain'_singleton]; norm_num)).2.1
     [0, 10, 20, 30, 40, 50] 10 (by decide!)).1,
   ((claim_C3 [0, 10, 20, 30, 40, 50]
      (by simp only [List.chain'_cons, List.chain'_singleton]; norm_num)).2.1
     [0, 10, 20, 30, 40, 50] 10 (by decide!)).2.1⟩

/-! ## Claim C8 (amended): the day divider detector -/

/-- The step-1 probe offsets are exactly the integers of [-40, 40]. -/
theorem probeOffsets_one_mem (dx : ℤ) :
    dx ∈ probeOffsets 40 1 ↔ (-40 ≤ dx ∧ dx ≤ 40) := by
  simp only [probeOffsets, List.mem_map, List.mem_range]
  constructor
  · rintro ⟨k, hk, rfl⟩
    push_cast
    omega
  · rintro ⟨h1, h2⟩
    refine ⟨(dx + 40).toNat, by omega, ?_⟩
    push_cast
    omega

/-- Every candidate kept by one divider probe passes the 0.18 non-white
threshold and carries the score nonWhiteFrac + 0.25 * darkFrac. -/
theorem divStep_preserve (pre : Pre) (yc : ℤ) (g : ℚ)
    (best : Option (VStripe × ℚ)) (dx : ℤ)
    (hbest : ∀ b, best = some b → (18/100 : ℚ) ≤ b.1.nonWhiteFrac ∧
      b.2 = b.1.nonWhiteFrac + b.1.darkFrac * (25/100)) :
    ∀ b, divStep pre yc g best dx = some b →
      (18/100 : ℚ) ≤ b.1.nonWhiteFrac ∧
      b.2 = b.1.nonWhiteFrac + b.1.darkFrac * (25/100) := by
  intro b hb
  simp only [divStep] at hb
  split at hb
  · exact hbest b hb
  · split at hb
    · exact hbest b hb
    · rename_i s heq
      split at hb
      · exact hbest b hb
      · rename_i hthr
        split at hb
        · rcases Option.some.inj hb with rfl
          exact ⟨not_lt.mp hthr, rfl⟩
        · exact hbest b hb

/-- One divider probe never lowers the best score. -/
theorem divStep_mono (pre : Pre) (yc : ℤ) (g : ℚ)
    (best : Option (VStripe × ℚ)) (dx : ℤ) :
    ∀ b0, best = some b0 →
      ∃ b1, divStep pre yc g best dx = some b1 ∧ b0.2 ≤ b1.2 := by
  intro b0 h0
  subst h0
  simp only [divStep]
  split
  · exact ⟨b0, rfl, le_refl _⟩
  · split
    · exact ⟨b0, rfl, le_refl _⟩
    · rename_i s heq
      split
      · exact ⟨b0, rfl, le_refl _⟩
      · split
        · rename_i himp
          refine ⟨(s, s.nonWhiteFrac + s.darkFrac * (25/100)), rfl, le_of_lt ?_⟩
          have h1 : decide (b0.2 < s.nonWhiteFrac + s.darkFrac * (25/100)) =
              true := by
            simpa only [Option.all_some] using himp
          exact of_decide_eq_true h1
        · exact ⟨b0, rfl, le_refl _⟩

/-- After probing a valid, scoring, threshold-passing offset, the running
best is at least that offset's score. -/
theorem divStep_cover (pre : Pre) (yc : ℤ) (g : ℚ)
    (best : Option (VStripe × ℚ)) (dx : ℤ) (s' : VStripe)
    (hval : ¬ (jsFloor (g + (dx : ℚ)) ≤ 0 ∨
      (pre.w : ℤ) ≤ jsFloor (g + (dx : ℚ))))
    (hsc : scoreVLineAtX pre ((jsFloor (g + (dx : ℚ)) : ℤ) : ℚ) yc = some s')
    (hthr : ¬ (s'.nonWhiteFrac < 18/100)) :
    ∃ b1, divStep pre yc g best dx = some b1 ∧
      s'.nonWhiteFrac + s'.darkFrac * (25/100) ≤ b1.2 := by
  simp only [divStep]
  rw [if_neg hval, hsc]
  simp only []
  rw [if_neg hthr]
  split
  · exact ⟨(s', s'.nonWhiteFrac + s'.darkFrac * (25/100)), rfl, le_refl _⟩
  · rename_i hkeep
    rcases best with _ | b0
    · exact absurd rfl hkeep
    · refine ⟨b0, rfl, ?_⟩
      refine not_lt.mp (fun hlt => hkeep ?_)
      simp only [Option.all_some]
      exact decide_eq_true hlt

/-- Fold invariant of the divider probe: threshold and score shape of the
result, best-score monotonicity, and coverage of every valid probed offset. -/
theorem divFold_inv (pre : Pre) (yc : ℤ) (g : ℚ) :
    ∀ (l : List ℤ) (best : Option (VStripe × ℚ)),
      (∀ b, best = some b → (18/100 : ℚ) ≤ b.1.nonWhiteFrac ∧
        b.2 = b.1.nonWhiteFrac + b.1.darkFrac * (25/100)) →
      ((∀ b, l.foldl (divStep pre yc g) best = some b →
        (18/100 : ℚ) ≤ b.1.nonWhiteFrac ∧
        b.2 = b.1.nonWhiteFrac + b.1.darkFrac * (25/100)) ∧
      (∀ b0, best = some b0 →
        ∃ b, l.foldl (divStep pre yc g) best = some b ∧ b0.2 ≤ b.2) ∧
      (∀ dx ∈ l, ∀ s' : VStripe,
        ¬ (jsFloor (g + (dx : ℚ)) ≤ 0 ∨
          (pre.w : ℤ) ≤ jsFloor (g + (dx : ℚ))) →
        scoreVLineAtX pre ((jsFloor (g + (dx : ℚ)) : ℤ) : ℚ) yc = some s' →
        ¬ (s'.nonWhiteFrac < 18/100) →
        ∃ b, l.foldl (divStep pre yc g) best = some b ∧
          s'.nonWhiteFrac + s'.darkFrac * (25/100) ≤ b.2)) := by
  intro l
  induction l with
  | nil =>
    intro best hbest
    exact ⟨hbest, fun b0 h0 => ⟨b0, h0, le_refl _⟩,
      fun dx hdx => absurd hdx (List.not_mem_nil dx)⟩
  | cons a t ih =>
    intro best hbest
    rw [List.foldl_cons]
    have hpres := divStep_preserve pre yc g best a hbest
    have step := ih (divStep pre yc g best a) hpres
    refine ⟨step.1, ?_, ?_⟩
    · intro b0 h0
      rcases divStep_mono pre yc g best a b0 h0 with ⟨b1, hb1, hle1⟩
      rcases step.2.1 b1 hb1 with ⟨b, hb, hle2⟩
      exact ⟨b, hb, le_trans hle1 hle2⟩
    · intro dx hdx s' hval hsc hthr
      rcases List.mem_cons.mp hdx with rfl | hdx'
      · rcases divStep_cover pre yc g best dx s' hval hsc hthr with
          ⟨b1, hb1, hle1⟩
        rcases step.2.1 b1 hb1 with ⟨b, hb, hle2⟩
        exact ⟨b, hb, le_trans hle1 hle2⟩
      · exact step.2.2 dx hdx' s' hval hsc hthr

/-- Stable insertion into an ascending list keeps it ascending. -/
theorem stableInsert_pairwise (a : ℤ) :
    ∀ l : List ℤ, l.Pairwise (· ≤ ·) →
      (stableInsert (fun a b => decide (a ≤ b)) a l).Pairwise (· ≤ ·) := by
  intro l
  induction l with
  | nil => intro _; simp [stableInsert]
  | cons b t ih =>
    intro h
    rcases List.pairwise_cons.mp h with ⟨hb, ht⟩
    simp only [stableInsert]
    split
    · rename_i hba
      refine List.pairwise_cons.mpr ⟨?_, ih ht⟩
      intro x hx
      rcases mem_stableInsert _ a x t hx with rfl | hx'
      · exact of_decide_eq_true hba
      · exact hb x hx'
    · rename_i hba
      have hab : a ≤ b := le_of_not_le (fun hc => hba (decide_eq_true hc))
      refine List.pairwise_cons.mpr ⟨?_, h⟩
      intro x hx
      rcases List.mem_cons.mp hx with rfl | hx'
      · exact hab
      · exact le_trans hab (hb x hx')

/-- The stable-sort fold from an ascending accumulator stays ascending. -/
theorem jsSortBy_pairwise_aux :
    ∀ (l acc : List ℤ), acc.Pairwise (· ≤ ·) →
      (l.foldl (fun acc a => stableInsert (fun a b => decide (a ≤ b)) a acc)
        acc).Pairwise (· ≤ ·) := by
  intro l
  induction l with
  | nil => intro acc h; exact h
  | cons a t ih =>
    intro acc h
    exact ih _ (stableInsert_pairwise a acc h)

/-- The stable sort with the ascending comparator sorts ascending. -/
theorem jsSortBy_pairwise (l : List ℤ) :
    (jsSortBy (fun a b => decide (a ≤ b)) l).Pairwise (· ≤ ·) :=
  jsSortBy_pairwise_aux l [] List.Pairwise.nil

/-- Claim C8, amended: the divider search scans ±40px at step 1 (not 2) —
each walk position calls findBestDividerNearX with scanStep 1; a probe
result passes the 0.18 non-white threshold, carries the score
nonWhiteFrac + 0.25·darkFrac, and maximises that score over all valid
threshold-passing offsets in [-40, 40]; the detector succeeds only with
exactly 6 divider x-coordinates; and the freeze stage sorts them ascending
and assigns the five consecutive intervals Monday through Friday. -/
theorem claim_C8 :
    (∀ dx : ℤ, dx ∈ probeOffsets 40 1 ↔ (-40 ≤ dx ∧ dx ≤ 40)) ∧
    (∀ (pre : Pre) (yc lx : ℤ) (st : ℚ) (n : ℕ) (acc : List ℤ),
      dividerWalk pre yc lx st (n + 1) acc =
        match findBestDividerNearX pre yc
            ((lx : ℚ) + st * (((6 - (n + 1) : ℕ)) : ℚ)) 1 with
        | none => Except.error (6 - (n + 1))
        | some b => dividerWalk pre yc lx st n (b.1.x :: acc)) ∧
    (∀ (pre : Pre) (yc : ℤ) (g : ℚ) (b : VStripe × ℚ),
      findBestDividerNearX pre yc g 1 = some b →
      (18/100 : ℚ) ≤ b.1.nonWhiteFrac ∧
      b.2 = b.1.nonWhiteFrac + b.1.darkFrac * (25/100) ∧
      (∀ dx : ℤ, -40 ≤ dx → dx ≤ 40 → ∀ s' : VStripe,
        ¬ (jsFloor (g + (dx : ℚ)) ≤ 0 ∨
          (pre.w : ℤ) ≤ jsFloor (g + (dx : ℚ))) →
        scoreVLineAtX pre ((jsFloor (g + (dx : ℚ)) : ℤ) : ℚ) yc = some s' →
        ¬ (s'.nonWhiteFrac < 18/100) →
        s'.nonWhiteFrac + s'.darkFrac * (25/100) ≤ b.2)) ∧
    (∀ (pre : Pre) (vTicks : List ℚ),
      (findDayDividers pre vTicks).ok = true →
      (findDayDividers pre vTicks).xs.length = 6) ∧
    (∀ divRes : DividersResult,
      (freezeDayRegionsFromDividers divRes).ok = true →
      (freezeDayRegionsFromDividers divRes).xs.Pairwise (· ≤ ·) ∧
      (freezeDayRegionsFromDividers divRes).xs.length = 6 ∧
      ∃ regs : DayRegions,
        (freezeDayRegionsFromDividers divRes).regions = some regs ∧
        regs.monday = ⟨(freezeDayRegionsFromDividers divRes).xs.getD 0 0,
          (freezeDayRegionsFromDividers divRes).xs.getD 1 0⟩ ∧
        regs.tuesday = ⟨(freezeDayRegionsFromDividers divRes).xs.getD 1 0,
          (freezeDayRegionsFromDividers divRes).xs.getD 2 0⟩ ∧
        regs.wednesday = ⟨(freezeDayRegionsFromDividers divRes).xs.getD 2 0,
          (freezeDayRegionsFromDividers divRes).xs.getD 3 0⟩ ∧
        regs.thursday = ⟨(freezeDayRegionsFromDividers divRes).xs.getD 3 0,
          (freezeDayRegionsFromDividers divRes).xs.getD 4 0⟩ ∧
        regs.friday = ⟨(freezeDayRegionsFromDividers divRes).xs.getD 4 0,
          (freezeDayRegionsFromDividers divRes).xs.getD 5 0⟩) := by
  refine ⟨probeOffsets_one_mem, ?_, ?_, ?_, ?_⟩
  · intro pre yc lx st n acc
    rfl
  · intro pre yc g b hb
    have hbf : (probeOffsets 40 1).foldl (divStep pre yc g) none = some b := hb
    have h := divFold_inv pre yc g (probeOffsets 40 1) none
      (fun b0 h0 => Option.noConfusion h0)
    refine ⟨(h.1 b hbf).1, (h.1 b hbf).2, ?_⟩
    intro dx h1 h2 s' hval hsc hthr
    have hdx : dx ∈ probeOffsets 40 1 := (probeOffsets_one_mem dx).mpr ⟨h1, h2⟩
    rcases h.2.2 dx hdx s' hval hsc hthr with ⟨b', hb', hle⟩
    rw [hbf] at hb'
    rcases Option.some.inj hb' with rfl
    exact hle
  · intro pre vTicks
    simp only [findDayDividers]
    repeat' split
    all_goals intro hok
    all_goals first
      | exact Bool.noConfusion hok
      | exact of_decide_eq_true hok
  · intro divRes
    simp only [freezeDayRegionsFromDividers]
    repeat' split
    all_goals intro hok
    · exact Bool.noConfusion hok
    · rename_i hlen
      exact ⟨jsSortBy_pairwise divRes.xs, hlen,
        ⟨_, rfl, rfl, rfl, rfl, rfl, rfl⟩⟩
    · exact Bool.noConfusion hok

/-- Witness for claim C8 amended: every part instantiated on concrete data —
the probe offsets at dx = 0; one walk step; the best divider of a 60×8 image
with a dark line (found at x = 37 scoring 3/4, covering the probe at
offset 7); the six-divider image preDiv6 (two 3px bars, detector succeeds
with 6 xs); and the freeze of the unsorted divider result
[5, 1, 3, 2, 4, 0]. -/
theorem claim_C8_witness :
    ((0 : ℤ) ∈ probeOffsets 40 1 ↔ (-40 ≤ (0 : ℤ) ∧ (0 : ℤ) ≤ 40)) ∧
    (dividerWalk preDivLine 4 0 30 1 [] =
      match findBestDividerNearX preDivLine 4
          ((0 : ℤ) + (30 : ℚ) * (((6 - (0 + 1) : ℕ)) : ℚ)) 1 with
      | none => Except.error (6 - (0 + 1))
      | some b => dividerWalk preDivLine 4 0 30 0 (b.1.x :: [])) ∧
    ((18/100 : ℚ) ≤ (3/5 : ℚ) ∧
      (3/4 : ℚ) = (3/5 : ℚ) + (3/5 : ℚ) * (25/100) ∧
      (3/5 : ℚ) + (3/5 : ℚ) * (25/100) ≤ (3/4 : ℚ)) ∧
    (findDayDividers preDiv6 []).xs.length = 6 ∧
    (freezeDayRegionsFromDividers ⟨true, 0, [5, 1, 3, 2, 4, 0], "ok"⟩).xs.length
      = 6 := by
  refine ⟨claim_C8.1 0, ?_, ?_, ?_, ?_⟩
  · exact claim_C8.2.1 preDivLine 4 0 30 0 []
  · have h3 := claim_C8.2.2.1 preDivLine 4 30
      (⟨37, 3/5, 3/5⟩, 3/4) (by decide!)
    exact ⟨h3.1, h3.2.1,
      h3.2.2 7 (by decide) (by decide) ⟨37, 3/5, 3/5⟩ (by decide!) (by decide!)
        (by decide!)⟩
  · exact claim_C8.2.2.2.1 preDiv6 [] (by decide!)
  · exact (claim_C8.2.2.2.2 ⟨true, 0, [5, 1, 3, 2, 4, 0], "ok"⟩
      (by decide!)).2.1

/-! ## Claim C7 (amended): the tick ladder gap invariant -/
theorem jsRound_near (q : ℚ) : |(jsRound q : ℚ) - q| ≤ 1/2 := by
  have h1 := Int.floor_le (q + 1/2)
  have h2 := Int.lt_floor_add_one (q + 1/2)
  rw [abs_le]
  simp only [jsRound]
  constructor <;> [linarith; linarith]

theorem ladder_sw_ge (dy : ℚ) : (4 : ℚ) ≤ clampQ (jsRound (dy * (12/100)) : ℚ) 4 18 :=
  le_max_left _ _

theorem ladder_sw_le (dy : ℚ) (h1 : 10 ≤ dy) :
    clampQ (jsRound (dy * (12/100)) : ℚ) 4 18 ≤ dy - 6 := by
  have hf : (jsRound (dy * (12/100)) : ℚ) ≤ dy * (12/100) + 1/2 := by
    simpa [jsRound] using Int.floor_le (dy * (12/100) + 1/2)
  refine max_le (by linarith) (le_trans (min_le_right _ _) (by linarith))

theorem ladder_sw_le_swT (dy : ℚ) (h0 : 0 ≤ dy) :
    clampQ (jsRound (dy * (12/100)) : ℚ) 4 18 ≤
      clampQ (jsRound (dy * (7/10)) : ℚ) 10 28 := by
  have hmono : jsRound (dy * (12/100)) ≤ jsRound (dy * (7/10)) := by
    simp only [jsRound]
    exact Int.floor_le_floor (by nlinarith)
  exact max_le_max (by norm_num)
    (min_le_min (by norm_num) (by exact_mod_cast hmono))

theorem ladder_stop_out (dy sw swT : ℚ) (hsw : sw ≤ swT)
    (p : ℚ) (t : List ℚ) (out : List ℚ) (hout : out = p :: t)
    (hchain : out.Chain' (fun a b => b < a ∧ dy - (sw + 3/2) ≤ a - b ∧
      a - b ≤ dy + (sw + 3/2))) :
    out.reverse ≠ [] ∧
    out.reverse.Chain' (fun a b => dy - (swT + 3/2) ≤ b - a ∧
      b - a ≤ dy + (swT + 3/2)) ∧
    out.reverse.dropLast.Chain' (fun a b => a < b ∧
      dy - (sw + 3/2) ≤ b - a ∧ b - a ≤ dy + (sw + 3/2)) := by
  subst hout
  refine ⟨by simp, ?_, ?_⟩
  · rw [List.chain'_reverse]
    exact hchain.imp (fun a b h => ⟨by linarith [h.2.1], by linarith [h.2.2]⟩)
  · rw [List.reverse_cons, List.dropLast_concat, List.chain'_reverse]
    exact hchain.tail

theorem ladder_stop_push (dy sw swT : ℚ) (hsw : sw ≤ swT)
    (p z : ℚ) (t : List ℚ) (out : List ℚ) (hout : out = p :: t)
    (hchain : out.Chain' (fun a b => b < a ∧ dy - (sw + 3/2) ≤ a - b ∧
      a - b ≤ dy + (sw + 3/2)))
    (hgap1 : dy - (swT + 3/2) ≤ z - p) (hgap2 : z - p ≤ dy + (swT + 3/2)) :
    (z :: out).reverse ≠ [] ∧
    (z :: out).reverse.Chain' (fun a b => dy - (swT + 3/2) ≤ b - a ∧
      b - a ≤ dy + (swT + 3/2)) ∧
    (z :: out).reverse.dropLast.Chain' (fun a b => a < b ∧
      dy - (sw + 3/2) ≤ b - a ∧ b - a ≤ dy + (sw + 3/2)) := by
  subst hout
  refine ⟨by simp, ?_, ?_⟩
  · rw [List.reverse_cons, List.chain'_append]
    refine ⟨?_, List.chain'_singleton z, ?_⟩
    · rw [List.chain'_reverse]
      exact hchain.imp (fun a b h => ⟨by linarith [h.2.1], by linarith [h.2.2]⟩)
    · intro x hx y hy
      simp only [List.getLast?_reverse, List.head?_cons, Option.mem_def,
        Option.some.injEq] at hx hy
      subst hx
      subst hy
      exact ⟨hgap1, hgap2⟩
  · rw [List.reverse_cons, List.dropLast_concat, List.chain'_reverse]
    exact hchain

theorem foldl_opt_preserve {α β : Type} (P : α → Prop) (f : Option α → β → Option α) :
    ∀ (l : List β) (acc : Option α),
      (∀ acc' x b, x ∈ l → (∀ a, acc' = some a → P a) → f acc' x = some b → P b) →
      (∀ a, acc = some a → P a) →
      ∀ b, l.foldl f acc = some b → P b := by
  intro l
  induction l with
  | nil => intro acc _ hacc b hb; exact hacc b hb
  | cons x t ih =>
    intro acc hf hacc b hb
    rw [List.foldl_cons] at hb
    exact ih (f acc x)
      (fun acc' x' b' hx' => hf acc' x' b' (List.mem_cons_of_mem _ hx'))
      (fun a ha => hf acc x a (List.mem_cons_self x t) hacc ha) b hb

theorem findBestHLinePeak_bounds (pre : Pre) (e swin : ℚ) (y : ℤ)
    (h : findBestHLinePeak pre e swin = some y) :
    clampZ (jsFloor (e - swin)) 0 ((pre.h : ℤ) - 3) ≤ y ∧
    y ≤ clampZ (jsFloor (e + swin)) 0 ((pre.h : ℤ) - 3) := by
  simp only [findBestHLinePeak] at h
  split at h
  · exact Option.noConfusion h
  · rename_i b heq
    split at h
    · exact Option.noConfusion h
    · rcases Option.some.inj h with rfl
      refine foldl_opt_preserve
        (fun bb : ℤ × ℚ => clampZ (jsFloor (e - swin)) 0 ((pre.h : ℤ) - 3) ≤ bb.1 ∧
          bb.1 ≤ clampZ (jsFloor (e + swin)) 0 ((pre.h : ℤ) - 3)) _ _ _
        ?_ (fun a ha => Option.noConfusion ha) b heq
      intro acc' x bb hx hacc' hfb
      have hxb : clampZ (jsFloor (e - swin)) 0 ((pre.h : ℤ) - 3) ≤ x ∧
          x ≤ clampZ (jsFloor (e + swin)) 0 ((pre.h : ℤ) - 3) := by
        rcases List.mem_map.mp hx with ⟨k, hk, rfl⟩
        have hk2 := List.mem_range.mp hk
        omega
      refine foldl_opt_preserve
        (fun bb : ℤ × ℚ => clampZ (jsFloor (e - swin)) 0 ((pre.h : ℤ) - 3) ≤ bb.1 ∧
          bb.1 ≤ clampZ (jsFloor (e + swin)) 0 ((pre.h : ℤ) - 3)) _ _ _
        ?_ hacc' bb hfb
      intro acc'' sp bb' hsp hacc'' hfb'
      repeat' split at hfb'
      all_goals first
        | (rcases Option.some.inj hfb' with rfl; exact hxb)
        | exact hacc'' bb' hfb'

theorem hPeak_gap (pre : Pre) (prev dy sw p : ℚ) (y : ℤ)
    (heq : findBestHLinePeak pre (prev + dy) sw = some y)
    (hstop : ¬ ((pre.h : ℚ) - 2 ≤ prev + dy))
    (hnear : |p - prev| ≤ 1/2) (hprev : 0 ≤ prev)
    (hdy : 10 ≤ dy) (hsw4 : 4 ≤ sw) (hsw6 : sw ≤ dy - 6) :
    (0 : ℚ) ≤ (y : ℚ) ∧ p < (y : ℚ) ∧
    dy - (sw + 3/2) ≤ (y : ℚ) - p ∧ (y : ℚ) - p ≤ dy + (sw + 3/2) := by
  obtain ⟨hlo, hhi⟩ := findBestHLinePeak_bounds pre (prev + dy) sw y heq
  simp only [clampZ, jsFloor] at hlo hhi
  have h0 : (0 : ℤ) ≤ y := le_trans (le_max_left _ _) hlo
  have hup : (y : ℚ) ≤ (prev + dy) + sw := by
    have hfl : (0 : ℤ) ≤ ⌊prev + dy + sw⌋ := Int.floor_nonneg.mpr (by linarith)
    have hyi : y ≤ ⌊prev + dy + sw⌋ :=
      le_trans hhi (max_le hfl (min_le_right _ _))
    have hyq : (y : ℚ) ≤ (⌊prev + dy + sw⌋ : ℚ) := by exact_mod_cast hyi
    have := Int.floor_le (prev + dy + sw)
    linarith
  have hlow : (prev + dy) - sw - 1 < (y : ℚ) := by
    have hfl3 : ⌊prev + dy - sw⌋ ≤ (pre.h : ℤ) - 3 := by
      have h1 : prev + dy - sw < (pre.h : ℚ) - 2 := by
        push_neg at hstop
        linarith
      have h2 : ⌊prev + dy - sw⌋ < (pre.h : ℤ) - 2 := by
        rw [Int.floor_lt]
        push_cast
        linarith
      omega
    have hyi : ⌊prev + dy - sw⌋ ≤ y := by
      refine le_trans (le_max_of_le_right ?_) hlo
      exact le_of_eq (min_eq_right hfl3).symm
    have hyq : ((⌊prev + dy - sw⌋ : ℤ) : ℚ) ≤ (y : ℚ) := by exact_mod_cast hyi
    have := Int.sub_one_lt_floor (prev + dy - sw)
    linarith
  rw [abs_le] at hnear
  refine ⟨by exact_mod_cast h0, by linarith, by linarith, by linarith⟩

theorem round_gap (prev dy sw p : ℚ) (hnear : |p - prev| ≤ 1/2)
    (hdy : 10 ≤ dy) (hsw4 : 4 ≤ sw) :
    p < (jsRound (prev + dy) : ℚ) ∧
    dy - (sw + 3/2) ≤ (jsRound (prev + dy) : ℚ) - p ∧
    (jsRound (prev + dy) : ℚ) - p ≤ dy + (sw + 3/2) := by
  have hr := jsRound_near (prev + dy)
  rw [abs_le] at hr hnear
  exact ⟨by linarith, by linarith, by linarith⟩

theorem lane_gap (prev dy swT p q : ℚ) (hnear : |p - prev| ≤ 1/2)
    (hcond : |q - (prev + dy)| ≤ swT) :
    dy - (swT + 3/2) ≤ (jsRound q : ℚ) - p ∧
    (jsRound q : ℚ) - p ≤ dy + (swT + 3/2) := by
  have hr := jsRound_near q
  rw [abs_le] at hr hnear hcond
  exact ⟨by linarith, by linarith⟩

theorem ladderGo_chain (pre : Pre) (dy sw : ℚ) (divs : List ℤ)
    (regs : Option DayRegions) (lane : Option LanePx)
    (hdy : 10 ≤ dy) (hsw4 : 4 ≤ sw) (hsw6 : sw ≤ dy - 6)
    (hswT : sw ≤ clampQ (jsRound (dy * (7/10)) : ℚ) 10 28) :
    ∀ (fuel : ℕ) (st : LadderState) (p : ℚ) (t : List ℚ),
      st.out = p :: t → |p - st.prev| ≤ 1/2 → 0 ≤ st.prev →
      st.out.Chain' (fun a b => b < a ∧ dy - (sw + 3/2) ≤ a - b ∧
        a - b ≤ dy + (sw + 3/2)) →
      (ladderGo pre dy sw divs regs lane fuel st).1 ≠ [] ∧
      (ladderGo pre dy sw divs regs lane fuel st).1.Chain'
        (fun a b => dy - (clampQ (jsRound (dy * (7/10)) : ℚ) 10 28 + 3/2) ≤ b - a ∧
          b - a ≤ dy + (clampQ (jsRound (dy * (7/10)) : ℚ) 10 28 + 3/2)) ∧
      (ladderGo pre dy sw divs regs lane fuel st).1.dropLast.Chain'
        (fun a b => a < b ∧ dy - (sw + 3/2) ≤ b - a ∧
          b - a ≤ dy + (sw + 3/2)) := by
  intro fuel
  induction fuel with
  | zero =>
    intro st p t hout hnear hprev hchain
    simp only [ladderGo]
    exact ladder_stop_out dy sw _ hswT p t st.out hout hchain
  | succ fuel ih =>
    intro st p t hout hnear hprev hchain
    simp only [ladderGo]
    split
    · exact ladder_stop_out dy sw _ hswT p t st.out hout hchain
    · rename_i hstop
      split
      · rename_i y heq
        obtain ⟨h0, hpy, hg1, hg2⟩ :=
          hPeak_gap pre st.prev dy sw p y heq hstop hnear hprev hdy hsw4 hsw6
        refine ih ⟨(y : ℚ) :: st.out, (y : ℚ), 0, 0⟩ (y : ℚ) st.out rfl
          (show |(y : ℚ) - (y : ℚ)| ≤ 1/2 by rw [sub_self, abs_zero]; norm_num)
          h0 ?_
        rw [hout]
        exact List.chain'_cons.mpr ⟨⟨hpy, hg1, hg2⟩, hout ▸ hchain⟩
      · rename_i hpeakn
        split
        · split
          · exact ladder_stop_out dy sw _ hswT p t st.out hout hchain
          · obtain ⟨hpy, hg1, hg2⟩ := round_gap st.prev dy sw p hnear hdy hsw4
            refine ih ⟨(jsRound (st.prev + dy) : ℚ) :: st.out, st.prev + dy,
              st.consecutiveVGood + 1, 0⟩ (jsRound (st.prev + dy) : ℚ) st.out
              rfl (jsRound_near (st.prev + dy))
                (show (0 : ℚ) ≤ st.prev + dy by linarith) ?_
            rw [hout]
            exact List.chain'_cons.mpr ⟨⟨hpy, hg1, hg2⟩, hout ▸ hchain⟩
        · split
          · split
            · exact ladder_stop_out dy sw _ hswT p t st.out hout hchain
            · obtain ⟨hpy, hg1, hg2⟩ := round_gap st.prev dy sw p hnear hdy hsw4
              refine ih ⟨(jsRound (st.prev + dy) : ℚ) :: st.out,
                st.prev + dy, 1, 0⟩ (jsRound (st.prev + dy) : ℚ) st.out
                rfl (jsRound_near (st.prev + dy))
                (show (0 : ℚ) ≤ st.prev + dy by linarith) ?_
              rw [hout]
              exact List.chain'_cons.mpr ⟨⟨hpy, hg1, hg2⟩, hout ▸ hchain⟩
          · split
            · exact ih ⟨st.out, st.prev, st.consecutiveVGood, 1⟩ p t hout
                hnear hprev hchain
            · split
              · rename_i lb heq2
                split
                · rename_i hcond
                  obtain ⟨hg1, hg2⟩ :=
                    lane_gap st.prev dy _ p (lb.1 : ℚ) hnear hcond
                  exact ladder_stop_push dy sw _ hswT p
                    (jsRound (lb.1 : ℚ) : ℚ) t st.out hout hchain hg1 hg2
                · exact ladder_stop_out dy sw _ hswT p t st.out hout hchain
              · exact ladder_stop_out dy sw _ hswT p t st.out hout hchain

/-- Claim C7, amended: for every ladder build from at least two validated
ticks with plausible spacing dy at least 10 and a nonnegative first tick,
the output tick list is nonempty, its consecutive gaps all lie within
dy plus or minus (snap tolerance + 3/2) where the tolerance is the widened
terminal window clamp(round(0.7 dy), 10, 28), and all ticks except possibly
the final one (the terminal-recovery candidate) are strictly increasing with
gaps within dy plus or minus the ordinary snap window
clamp(round(0.12 dy), 4, 18) + 3/2.  The one-time gap allowance retries the
same expected position without moving the cursor, so it never widens an
emitted gap. -/
theorem claim_C7 (pre : Pre) (vTicks : List ℚ) (dy : ℚ) (dividerXs : List ℤ)
    (dayRegions : Option DayRegions) (tickLane : Option LanePx)
    (h2 : ¬ vTicks.length < 2) (hdy1 : (10 : ℚ) ≤ dy)
    (ht0 : (0 : ℚ) ≤ vTicks.getD 0 0) :
    (buildGlobalTickLadder pre vTicks dy dividerXs dayRegions
      tickLane).ticks ≠ [] ∧
    (buildGlobalTickLadder pre vTicks dy dividerXs dayRegions
      tickLane).ticks.Chain'
      (fun a b => dy - (clampQ (jsRound (dy * (7/10)) : ℚ) 10 28 + 3/2) ≤ b - a ∧
        b - a ≤ dy + (clampQ (jsRound (dy * (7/10)) : ℚ) 10 28 + 3/2)) ∧
    (buildGlobalTickLadder pre vTicks dy dividerXs dayRegions
      tickLane).ticks.dropLast.Chain'
      (fun a b => a < b ∧
        dy - (clampQ (jsRound (dy * (12/100)) : ℚ) 4 18 + 3/2) ≤ b - a ∧
        b - a ≤ dy + (clampQ (jsRound (dy * (12/100)) : ℚ) 4 18 + 3/2)) := by
  simp only [buildGlobalTickLadder]
  rw [if_neg h2]
  exact ladderGo_chain pre dy _ dividerXs dayRegions tickLane hdy1
    (ladder_sw_ge dy) (ladder_sw_le dy hdy1)
    (ladder_sw_le_swT dy (by linarith))
    120 ⟨[vTicks.getD 0 0], vTicks.getD 0 0, 0, 0⟩ (vTicks.getD 0 0) [] rfl
    (show |vTicks.getD 0 0 - vTicks.getD 0 0| ≤ 1/2 by
      rw [sub_self, abs_zero]; norm_num)
    ht0 (List.chain'_singleton _)

/-- Witness for claim C7 amended on the 50x27 edge image: the ladder from
ticks [7, 18, ...] with dy = 23/2 yields nonempty, chain-bounded output. -/
theorem claim_C7_witness :
    (buildGlobalTickLadder preLadderEdge [7, 18, 30, 41, 53, 64] (23/2) []
      none none).ticks ≠ [] ∧
    (buildGlobalTickLadder preLadderEdge [7, 18, 30, 41, 53, 64] (23/2) []
      none none).ticks.Chain'
      (fun a b => (23/2 : ℚ) -
          (clampQ (jsRound ((23/2 : ℚ) * (7/10)) : ℚ) 10 28 + 3/2) ≤ b - a ∧
        b - a ≤ (23/2 : ℚ) +
          (clampQ (jsRound ((23/2 : ℚ) * (7/10)) : ℚ) 10 28 + 3/2)) ∧
    (buildGlobalTickLadder preLadderEdge [7, 18, 30, 41, 53, 64] (23/2) []
      none none).ticks.dropLast.Chain'
      (fun a b => a < b ∧
        (23/2 : ℚ) -
          (clampQ (jsRound ((23/2 : ℚ) * (12/100)) : ℚ) 4 18 + 3/2) ≤ b - a ∧
        b - a ≤ (23/2 : ℚ) +
          (clampQ (jsRound ((23/2 : ℚ) * (12/100)) : ℚ) 4 18 + 3/2)) :=
  claim_C7 preLadderEdge [7, 18, 30, 41, 53, 64] (23/2) [] none none
    (by decide) (by norm_num) (by decide!)

end SchedulePipeline
